import Mathlib

/-!
Shallow embedding of the LLM response-normalization core of the
recommendation-engine service, and proofs of the behavioural claims about it.

Source files embedded (Python):
- `src/inference/recommendation.py` — objective-recommendation reconciler
- `src/inference/test_generation.py` — test-generation reconciler (variant 1)
- `src/inference/rec_test_generation.py` — test-generation reconciler (variant 2)
- `src/docs/descriptions.py` — shared prompt constants
- `src/models/recommendation.py`, `src/models/test_generation.py` — pydantic schemas
- `src/main.py` — response serialization policy (`response_model_exclude_none`)

The module `src/inference/utilities.py` (`safe_json_loads`,
`extract_text_from_anthropic_bedrock`) is not present in the repository; those
two collaborators are modelled from the spec (§4.1, §4.2) and marked as such.

Modelling conventions:
- Python exceptions are embedded as `Except String`; the message strings mirror
  the source (Python `!r` repr formatting of embedded text is approximated by
  splicing the text directly).
- Python `str` is `String`; `str.strip()` is `pyStrip` (whitespace per
  `Char.isWhitespace`, an ASCII-adequate model of Python's unicode whitespace).
- Python dicts are association lists with first-occurrence order and
  keep-last-value update, matching CPython semantics.
- The opaque model-call collaborator composed with the text extractor is a
  function `ModelClient`; each reconciler also returns the list of collaborator
  invocations it made, so that call-count claims are statable.
-/

namespace RecEngine

/-! ## Character and string helpers (models of the Python `str` operations) -/

/-- Model of the whitespace class used by Python `str.strip` and the regex
class `\s` (ASCII fragment). -/
def isSpace (c : Char) : Bool := c.isWhitespace

def quoteChar : Char := Char.ofNat 34

def lbraceChar : Char := Char.ofNat 123

def rbraceChar : Char := Char.ofNat 125

/-- Python `str.strip()` on a character list: drop leading and trailing
whitespace. -/
def pyStripList (cs : List Char) : List Char :=
  (cs.dropWhile isSpace).rdropWhile isSpace

/-- Python `str.strip()`. -/
def pyStrip (s : String) : String := ⟨pyStripList s.data⟩

/-- Python `str.lower()` (ASCII fragment). -/
def pyLower (s : String) : String := ⟨s.data.map Char.toLower⟩

/-- Split a character list at every separator character. Together with the
strip-and-drop-empties post-processing applied at every use site this models
`re.split` on a one-or-more-separators class (runs of separators only ever add
empty parts, which the post-processing removes). -/
def splitOnPred (p : Char → Bool) : List Char → List (List Char)
  | [] => [[]]
  | c :: cs =>
    if p c then [] :: splitOnPred p cs
    else
      match splitOnPred p cs with
      | [] => [[c]]
      | h :: t => (c :: h) :: t

/-! ## JSON values

Python dict semantics: `jsonGet` is `dict.get` (first — and only — binding of a
key), `jsonSet` is item assignment (replace in place if the key exists,
preserving insertion order, else append), which is also how `json.loads` treats
duplicate object keys (last value wins, first position kept). -/

inductive Json where
  | null
  | bool (b : Bool)
  | numLit (lit : String)
  | str (s : String)
  | arr (items : List Json)
  | obj (fields : List (String × Json))
deriving Repr

def jsonGet (fields : List (String × Json)) (k : String) : Option Json :=
  match fields with
  | [] => none
  | (k', v) :: rest => if k' = k then some v else jsonGet rest k

def jsonSet (fields : List (String × Json)) (k : String) (v : Json) :
    List (String × Json) :=
  match fields with
  | [] => [(k, v)]
  | (k', v') :: rest =>
    if k' = k then (k, v) :: rest else (k', v') :: jsonSet rest k v

/-! ## Strict JSON parser

Modelled from the spec (§4.2 strategy 1): a strict parse of a whole string, the
model of the Python `json.loads` call inside `safe_json_loads` in the absent
`src/inference/utilities.py`. Numbers are kept as their literal text (no claim
inspects a numeric value). Recursion is by fuel, `2 * length + 2` of which is
always enough since every fuel step consumes input. -/

def hexDigitVal (c : Char) : Option Nat :=
  if c.isDigit then some (c.toNat - 48)
  else if 'a' ≤ c ∧ c ≤ 'f' then some (c.toNat - 97 + 10)
  else if 'A' ≤ c ∧ c ≤ 'F' then some (c.toNat - 65 + 10)
  else none

def escapeChar (c : Char) : Option Char :=
  if c = quoteChar then some quoteChar
  else if c = '\\' then some '\\'
  else if c = '/' then some '/'
  else if c = 'n' then some '\n'
  else if c = 't' then some '\t'
  else if c = 'r' then some '\r'
  else if c = 'b' then some (Char.ofNat 8)
  else if c = 'f' then some (Char.ofNat 12)
  else none

/-- Parse the body of a JSON string literal, after the opening quote. -/
def jsonStringBody (acc : List Char) : List Char → Option (String × List Char)
  | [] => none
  | '\\' :: 'u' :: a :: b :: c :: d :: rest =>
    match hexDigitVal a, hexDigitVal b, hexDigitVal c, hexDigitVal d with
    | some va, some vb, some vc, some vd =>
      jsonStringBody (Char.ofNat (((va * 16 + vb) * 16 + vc) * 16 + vd) :: acc) rest
    | _, _, _, _ => none
  | '\\' :: e :: rest =>
    match escapeChar e with
    | some ch => jsonStringBody (ch :: acc) rest
    | none => none
  | c :: rest =>
    if c = quoteChar then some (⟨acc.reverse⟩, rest)
    else jsonStringBody (c :: acc) rest

/-- Parse a JSON number literal (sign, integer part, optional fraction and
exponent), returning its literal text. -/
def jsonNumberLit (cs : List Char) : Option (String × List Char) :=
  let (sign, cs1) :=
    match cs with
    | '-' :: r => ([('-' : Char)], r)
    | _ => ([], cs)
  let intPart := cs1.takeWhile Char.isDigit
  let cs2 := cs1.dropWhile Char.isDigit
  if intPart = [] then none
  else
    let (fracPart, cs3) :=
      match cs2 with
      | '.' :: r =>
        let ds := r.takeWhile Char.isDigit
        if ds = [] then ([('!' : Char)], r) else ('.' :: ds, r.dropWhile Char.isDigit)
      | _ => ([], cs2)
    if fracPart = [('!' : Char)] then none
    else
      let (expPart, cs4) :=
        match cs3 with
        | 'e' :: r =>
          match r with
          | '+' :: r2 => (('e' :: '+' :: r2.takeWhile Char.isDigit), r2.dropWhile Char.isDigit)
          | '-' :: r2 => (('e' :: '-' :: r2.takeWhile Char.isDigit), r2.dropWhile Char.isDigit)
          | _ => (('e' :: r.takeWhile Char.isDigit), r.dropWhile Char.isDigit)
        | 'E' :: r =>
          match r with
          | '+' :: r2 => (('E' :: '+' :: r2.takeWhile Char.isDigit), r2.dropWhile Char.isDigit)
          | '-' :: r2 => (('E' :: '-' :: r2.takeWhile Char.isDigit), r2.dropWhile Char.isDigit)
          | _ => (('E' :: r.takeWhile Char.isDigit), r.dropWhile Char.isDigit)
        | _ => ([], cs3)
      match expPart with
      | 'e' :: t => if t.getLast? = some '+' ∨ t.getLast? = some '-' ∨ t = [] then none
                    else some (⟨sign ++ intPart ++ fracPart ++ expPart⟩, cs4)
      | 'E' :: t => if t.getLast? = some '+' ∨ t.getLast? = some '-' ∨ t = [] then none
                    else some (⟨sign ++ intPart ++ fracPart ++ expPart⟩, cs4)
      | _ => some (⟨sign ++ intPart ++ fracPart ++ expPart⟩, cs4)

mutual

def jsonValue (fuel : Nat) (cs : List Char) : Option (Json × List Char) :=
  match fuel with
  | 0 => none
  | fuel + 1 =>
    match cs.dropWhile isSpace with
    | 'n' :: 'u' :: 'l' :: 'l' :: r => some (Json.null, r)
    | 't' :: 'r' :: 'u' :: 'e' :: r => some (Json.bool true, r)
    | 'f' :: 'a' :: 'l' :: 's' :: 'e' :: r => some (Json.bool false, r)
    | c :: r =>
      if c = quoteChar then
        match jsonStringBody [] r with
        | some (s, r2) => some (Json.str s, r2)
        | none => none
      else if c = lbraceChar then
        match (r.dropWhile isSpace) with
        | c2 :: r2 =>
          if c2 = rbraceChar then some (Json.obj [], r2)
          else
            match jsonFields fuel (c2 :: r2) with
            | some (fs, r3) =>
              -- CPython builds the dict by successive item assignment, so a
              -- duplicate key keeps its first position and its last value.
              some (Json.obj (fs.foldl (fun acc kv => jsonSet acc kv.1 kv.2) []), r3)
            | none => none
        | [] => none
      else if c = '[' then
        match (r.dropWhile isSpace) with
        | c2 :: r2 =>
          if c2 = ']' then some (Json.arr [], r2)
          else
            match jsonItems fuel (c2 :: r2) with
            | some (items, r3) => some (Json.arr items, r3)
            | none => none
        | [] => none
      else if c = '-' ∨ c.isDigit then
        match jsonNumberLit (c :: r) with
        | some (lit, r2) => some (Json.numLit lit, r2)
        | none => none
      else none
    | [] => none

def jsonItems (fuel : Nat) (cs : List Char) : Option (List Json × List Char) :=
  match fuel with
  | 0 => none
  | fuel + 1 =>
    match jsonValue fuel cs with
    | none => none
    | some (v, r) =>
      match r.dropWhile isSpace with
      | ',' :: r2 =>
        match jsonItems fuel r2 with
        | some (vs, r3) => some (v :: vs, r3)
        | none => none
      | c :: r2 =>
        if c = ']' then some ([v], r2) else none
      | [] => none

def jsonFields (fuel : Nat) (cs : List Char) : Option (List (String × Json) × List Char) :=
  match fuel with
  | 0 => none
  | fuel + 1 =>
    match cs.dropWhile isSpace with
    | c :: r =>
      if c = quoteChar then
        match jsonStringBody [] r with
        | none => none
        | some (key, r1) =>
          match r1.dropWhile isSpace with
          | ':' :: r2 =>
            match jsonValue fuel r2 with
            | none => none
            | some (v, r3) =>
              match r3.dropWhile isSpace with
              | ',' :: r4 =>
                match jsonFields fuel r4 with
                | some (fs, r5) => some ((key, v) :: fs, r5)
                | none => none
              | c2 :: r4 =>
                if c2 = rbraceChar then some ([(key, v)], r4) else none
              | [] => none
          | _ => none
      else none
    | [] => none

end

/-! ## Tolerant JSON parsing

`safe_json_loads` lives in `src/inference/utilities.py`, which is not part of
the repository; it is modelled from the spec (§4.2), consolidating all three
strategies into the single function both reconcilers import. -/

/-- Strict `json.loads`: the whole string must be one JSON value surrounded by
at most whitespace. -/
def json_loads (s : String) : Except String Json :=
  match jsonValue (2 * s.length + 2) s.data with
  | some (j, r) => if r.dropWhile isSpace = [] then .ok j else .error "Extra data"
  | none => .error "Expecting value"

/-- Balanced-brace scan (spec §4.2 strategy 2): given the input from its first
left brace on, find the matching right brace, ignoring braces inside string
literals (tracking escapes), and return the span inclusive of both braces. -/
def braceSpanAux (acc : List Char) (depth : Nat) (inStr escaped : Bool) :
    List Char → Option (List Char)
  | [] => none
  | c :: rest =>
    if inStr then
      if escaped then braceSpanAux (c :: acc) depth true false rest
      else if c = '\\' then braceSpanAux (c :: acc) depth true true rest
      else if c = quoteChar then braceSpanAux (c :: acc) depth false false rest
      else braceSpanAux (c :: acc) depth true false rest
    else if c = quoteChar then braceSpanAux (c :: acc) depth true false rest
    else if c = lbraceChar then braceSpanAux (c :: acc) (depth + 1) false false rest
    else if c = rbraceChar then
      match depth with
      | 0 => none
      | 1 => some (c :: acc).reverse
      | d + 2 => braceSpanAux (c :: acc) (d + 1) false false rest
    else braceSpanAux (c :: acc) depth false false rest

/-- The substring from the first `{` to its matching `}`, when one exists. -/
def extractBracedSubstring (cs : List Char) : Option (List Char) :=
  match cs.dropWhile (fun c => c ≠ lbraceChar) with
  | [] => none
  | c :: rest => braceSpanAux [c] 1 false false rest

/-- Normalize typographic quote characters to plain ASCII quotes
(spec §4.2 strategy 3). -/
def normalizeQuoteChar (c : Char) : Char :=
  if c = Char.ofNat 0x201C ∨ c = Char.ofNat 0x201D ∨ c = Char.ofNat 0x201E then quoteChar
  else if c = Char.ofNat 0x2018 ∨ c = Char.ofNat 0x2019 then Char.ofNat 39
  else c

/-- One pass of trailing-comma stripping: drop each comma whose next
non-whitespace character closes an object or array. -/
def stripTrailingCommasPass : List Char → List Char
  | [] => []
  | c :: rest =>
    if c = ',' then
      match rest.dropWhile isSpace with
      | c2 :: _ =>
        if c2 = rbraceChar ∨ c2 = ']' then stripTrailingCommasPass rest
        else c :: stripTrailingCommasPass rest
      | [] => c :: stripTrailingCommasPass rest
    else c :: stripTrailingCommasPass rest

/-- Trailing-comma stripping applied repeatedly until no further trailing comma
is found (spec §4.2 strategy 3); each productive pass shortens the input, so
`length` passes reach the fixpoint. -/
def stripTrailingCommasFix (fuel : Nat) (cs : List Char) : List Char :=
  match fuel with
  | 0 => cs
  | f + 1 =>
    let cs2 := stripTrailingCommasPass cs
    if cs2 = cs then cs else stripTrailingCommasFix f cs2

def lenientNormalize (s : String) : String :=
  ⟨stripTrailingCommasFix s.length (s.data.map normalizeQuoteChar)⟩

/-- Strategy 3: lenient normalization, then the strict and brace-substring
parses again. -/
def safe_json_loads_lenient (s : String) : Except String Json :=
  let t := lenientNormalize s
  match json_loads t with
  | .ok j => .ok j
  | .error _ =>
    match extractBracedSubstring t.data with
    | some sub =>
      match json_loads ⟨sub⟩ with
      | .ok j => .ok j
      | .error _ => .error ("Could not parse JSON from model output: " ++ s)
    | none => .error ("Could not parse JSON from model output: " ++ s)

/-- Modelled from the spec: `safe_json_loads` from the absent
`src/inference/utilities.py` (§4.2 Tolerant JSON Parser). Strategies in order
of preference: (1) strict parse of the whole string; (2) strict parse of the
first balanced-brace substring; (3) quote normalization and trailing-comma
stripping, then (1) and (2) again. Fails (ParseError) when no strategy yields
valid JSON; never returns a partial structure. -/
def safe_json_loads (s : String) : Except String Json :=
  match json_loads s with
  | .ok j => .ok j
  | .error _ =>
    match extractBracedSubstring s.data with
    | some sub =>
      match json_loads ⟨sub⟩ with
      | .ok j => .ok j
      | .error _ => safe_json_loads_lenient s
    | none => safe_json_loads_lenient s

/-! ## Request and response schemas (`src/models/recommendation.py`,
`src/models/test_generation.py`)

The pydantic models become structures; `Field` default values become default
field values, and the declared bounds (`min_length`, `ge`, `le`) become the
`Valid` predicates checked by the framework at the boundary. An optional field
whose value is `None` is a field that is absent from the serialized object
whenever serialization excludes `None` (see `serializeRecommendResponse`). -/

structure SimpleContext where
  persona : Option String := none
  domain : Option String := none
  instructions : Option String := none
  satisfactionCriteria : Option (List String) := none
  extraNotes : Option String := none
deriving Repr

structure SimpleObjectiveRequest where
  objective : String
  context : Option SimpleContext := none
  includeReason : Bool := true
  numRecommendations : Nat := 3
deriving Repr

/-- The bounds pydantic enforces on `SimpleObjectiveRequest`:
`objective` has `min_length=1`; `numRecommendations` has `ge=1, le=5`. -/
def SimpleObjectiveRequest.Valid (r : SimpleObjectiveRequest) : Prop :=
  1 ≤ r.objective.length ∧ 1 ≤ r.numRecommendations ∧ r.numRecommendations ≤ 5

structure SimpleRecommendResponse where
  reason : Option String := none
  definingObjectives : List String
deriving Repr, DecidableEq

/-- Serialization of `SimpleRecommendResponse` as performed by the
recommendation route in `src/main.py`, which sets
`response_model_exclude_none=True`: a field holding `None` is omitted from the
serialized object entirely (not rendered as `null`). -/
def serializeRecommendResponse (r : SimpleRecommendResponse) : List (String × Json) :=
  (match r.reason with
   | some s => [("reason", Json.str s)]
   | none => []) ++
  [("definingObjectives", Json.arr (r.definingObjectives.map Json.str))]

structure TestGenContext where
  description : String
  language : String := "en"
  number_of_intents : Nat := 3
  userDefinedVariables : List (String × Json) := []
deriving Repr

structure TestGenerationRequest where
  domain : String
  context : TestGenContext
deriving Repr

/-- The bounds pydantic enforces on `TestGenerationRequest`: `domain` and
`context.description` have `min_length=1`; `language` has
`min_length=2, max_length=16`; `number_of_intents` has `ge=1, le=10`. -/
def TestGenerationRequest.Valid (r : TestGenerationRequest) : Prop :=
  1 ≤ r.domain.length ∧ 1 ≤ r.context.description.length ∧
  2 ≤ r.context.language.length ∧ r.context.language.length ≤ 16 ∧
  1 ≤ r.context.number_of_intents ∧ r.context.number_of_intents ≤ 10

structure GeneratedTestCase where
  name : String
  description : String
  persona : Option String := none
  userVariables : List (String × Json) := []
  steps : List String := []
  expected : List String := []
deriving Repr

structure TestGenerationResponse where
  domain : String
  language : String
  testCases : List GeneratedTestCase
deriving Repr

/-! ## Pydantic validation of the outbound test-generation shape

`TestGenerationResponse.model_validate(parsed)` on the parsed (and
truth-enforced) JSON object: required string fields must be strings, `persona`
may be a string or null or absent, `userVariables` must be an object when
present, `steps`/`expected` must be lists of strings when present, extra keys
are ignored, and a malformed individual test case fails the whole response. -/

def asStringList : List Json → Option (List String)
  | [] => some []
  | Json.str s :: rest =>
    match asStringList rest with
    | some tl => some (s :: tl)
    | none => none
  | _ :: _ => none

def validateGeneratedTestCase (j : Json) : Except String GeneratedTestCase :=
  match j with
  | Json.obj fs =>
    match jsonGet fs "name", jsonGet fs "description" with
    | some (Json.str name), some (Json.str description) =>
      let personaV : Except String (Option String) :=
        match jsonGet fs "persona" with
        | none => .ok none
        | some Json.null => .ok none
        | some (Json.str p) => .ok (some p)
        | some _ => .error "Input should be a valid string: persona"
      let userVarsV : Except String (List (String × Json)) :=
        match jsonGet fs "userVariables" with
        | none => .ok []
        | some (Json.obj kvs) => .ok kvs
        | some _ => .error "Input should be a valid dictionary: userVariables"
      let stepsV : Except String (List String) :=
        match jsonGet fs "steps" with
        | none => .ok []
        | some (Json.arr items) =>
          match asStringList items with
          | some ss => .ok ss
          | none => .error "Input should be a valid string: steps"
        | some _ => .error "Input should be a valid list: steps"
      let expectedV : Except String (List String) :=
        match jsonGet fs "expected" with
        | none => .ok []
        | some (Json.arr items) =>
          match asStringList items with
          | some ss => .ok ss
          | none => .error "Input should be a valid string: expected"
        | some _ => .error "Input should be a valid list: expected"
      match personaV, userVarsV, stepsV, expectedV with
      | .ok p, .ok uv, .ok st, .ok ex =>
        .ok ⟨name, description, p, uv, st, ex⟩
      | .error e, _, _, _ => .error e
      | _, .error e, _, _ => .error e
      | _, _, .error e, _ => .error e
      | _, _, _, .error e => .error e
    | _, _ => .error "Field required: name, description"
  | _ => .error "Input should be a valid dictionary: testCase"

def validateTestCaseList : List Json → Except String (List GeneratedTestCase)
  | [] => .ok []
  | j :: rest =>
    match validateGeneratedTestCase j with
    | .error e => .error e
    | .ok tc =>
      match validateTestCaseList rest with
      | .error e => .error e
      | .ok tcs => .ok (tc :: tcs)

def validateTestGenerationResponse (j : Json) : Except String TestGenerationResponse :=
  match j with
  | Json.obj fs =>
    match jsonGet fs "domain" with
    | some (Json.str domain) =>
      match jsonGet fs "language" with
      | some (Json.str language) =>
        match jsonGet fs "testCases" with
        | some (Json.arr items) =>
          match validateTestCaseList items with
          | .ok tcs => .ok ⟨domain, language, tcs⟩
          | .error e => .error e
        | _ => .error "Field required: testCases"
      | _ => .error "Field required: language"
    | _ => .error "Field required: domain"
  | _ => .error "Input should be a valid dictionary: TestGenerationResponse"

/-! ## The opaque model-call collaborator

`bedrock_client.invoke_model` composed with
`extract_text_from_anthropic_bedrock` (the latter is in the absent
`src/inference/utilities.py`; modelled from the spec §4.1: it produces the
flat text the model generated, or nothing, and never fails). A `ModelClient`
maps the system prompt and the user text to that optional flat text, and every
reconciler also returns the `BedrockCall`s it issued, in order. -/

def ModelClient : Type := String → String → Option String

structure BedrockCall where
  system : String
  userText : String
  maxTokens : Nat
deriving Repr, DecidableEq

/-- Render a string as a JSON string literal (for the request dumps). -/
def renderJsonString (s : String) : String :=
  ⟨quoteChar ::
    s.data.foldr
      (fun c acc => if c = quoteChar ∨ c = '\\' then '\\' :: c :: acc else c :: acc)
      [quoteChar]⟩

mutual

def renderJson : Json → String
  | .null => "null"
  | .bool true => "true"
  | .bool false => "false"
  | .numLit l => l
  | .str s => renderJsonString s
  | .arr items => "[" ++ renderJsonList items ++ "]"
  | .obj fields => "\x7b" ++ renderJsonFields fields ++ "\x7d"

def renderJsonList : List Json → String
  | [] => ""
  | [j] => renderJson j
  | j :: rest => renderJson j ++ ", " ++ renderJsonList rest

def renderJsonFields : List (String × Json) → String
  | [] => ""
  | [(k, v)] => renderJsonString k ++ ": " ++ renderJson v
  | (k, v) :: rest => renderJsonString k ++ ": " ++ renderJson v ++ ", " ++ renderJsonFields rest

end

def dumpOptString : Option String → String
  | none => "null"
  | some s => renderJsonString s

def dumpStringList : List String → String
  | [] => "[]"
  | ss => "[" ++ String.intercalate ", " (ss.map renderJsonString) ++ "]"

/-- Modelled from the spec: the serialized request payload
`json.dumps(req.model_dump(), ensure_ascii=False, indent=2)` sent as the user
message. The exact rendering is irrelevant to every claim (the collaborator is
opaque); what matters is that it is a fixed function of the request, and that
the two test-generation variants compute it identically. -/
def dumpSimpleContext (c : SimpleContext) : String :=
  "\x7b\"persona\": " ++ dumpOptString c.persona ++
  ", \"domain\": " ++ dumpOptString c.domain ++
  ", \"instructions\": " ++ dumpOptString c.instructions ++
  ", \"satisfactionCriteria\": " ++
    (match c.satisfactionCriteria with
     | none => "null"
     | some ss => dumpStringList ss) ++
  ", \"extraNotes\": " ++ dumpOptString c.extraNotes ++ "\x7d"

def dumpSimpleRequest (r : SimpleObjectiveRequest) : String :=
  "\x7b\"objective\": " ++ renderJsonString r.objective ++
  ", \"context\": " ++
    (match r.context with
     | none => "null"
     | some c => dumpSimpleContext c) ++
  ", \"includeReason\": " ++ (if r.includeReason then "true" else "false") ++
  ", \"numRecommendations\": " ++ toString r.numRecommendations ++ "\x7d"

def dumpTestGenRequest (r : TestGenerationRequest) : String :=
  "\x7b\"domain\": " ++ renderJsonString r.domain ++
  ", \"context\": \x7b\"description\": " ++ renderJsonString r.context.description ++
  ", \"language\": " ++ renderJsonString r.context.language ++
  ", \"number_of_intents\": " ++ toString r.context.number_of_intents ++
  ", \"userDefinedVariables\": " ++ renderJson (Json.obj r.context.userDefinedVariables) ++
  "\x7d\x7d"

/-! ## Objective-Recommendation Reconciler (`src/inference/recommendation.py`) -/

namespace recommendation

def SYSTEM_PROMPT_SIMPLE : String := "You are a helpful assistant that improves an objective into clearer, testable defining objectives.

Input: You will receive a JSON payload containing:
  - objective: string
  - context: optional object with fields like persona, domain, instructions, satisfactionCriteria, extraNotes
  - includeReason: boolean (default true)
  - numRecommendations: integer (1..5, default 3)

Output rules:
- You MUST return ONLY valid JSON (no markdown, no extra text).
- The first non-whitespace character MUST be \x27\x7b\x27 and the last MUST be \x27\x7d\x27.
- You MUST return EXACTLY these keys depending on includeReason:

If includeReason is true:
\x7b
  \"reason\": string,
  \"definingObjectives\": [string, ...]   // length MUST equal numRecommendations
\x7d

If includeReason is false:
\x7b
  \"definingObjectives\": [string, ...]   // length MUST equal numRecommendations
\x7d

No other keys are allowed. The definingObjectives list MUST contain EXACTLY numRecommendations items.
"

/-- The characters after a leading list marker, when the line starts with one.
Markers, per the regex in `parse_objectives_from_text`: one or more digits
followed by a period or a closing parenthesis, or one of the bullets
dash, U+2022, asterisk. -/
def markerTail (cs : List Char) : Option (List Char) :=
  match cs with
  | [] => none
  | c :: rest =>
    if c = '-' ∨ c = '•' ∨ c = '*' then some rest
    else if c.isDigit then
      match rest.dropWhile Char.isDigit with
      | p :: rest2 => if p = '.' ∨ p = ')' then some rest2 else none
      | [] => none
    else none

/-- Model of matching a line against the pattern marker, whitespace-run,
remainder — composed with the `m.group(2).strip()` extraction and the
skip-if-empty filter of the loop in `parse_objectives_from_text`: the regex
requires at least one whitespace character after the marker and a non-empty
remainder, and a candidate that strips to the empty string (possible only via
backtracking on a line with trailing whitespace) is dropped, so a stripped
non-empty remainder after the whitespace run is both necessary and
sufficient. -/
def line_candidate (ln : String) : Option String :=
  match markerTail ln.data with
  | none => none
  | some tail =>
    if tail.takeWhile isSpace ≠ [] ∧ tail.dropWhile isSpace ≠ [] then
      some (pyStrip ⟨tail.dropWhile isSpace⟩)
    else none

/-- Case-insensitive de-duplication preserving first-seen order (`seen` holds
the lowered keys already emitted). -/
def dedup_ci (seen : List String) : List String → List String
  | [] => []
  | x :: xs =>
    if seen.contains (pyLower x) then dedup_ci seen xs
    else x :: dedup_ci (pyLower x :: seen) xs

/-- Best-effort fallback parser for non-JSON model outputs
(`parse_objectives_from_text`): take the stripped non-empty lines, extract the
trailing text of each line that begins with a numbered or bulleted marker; if
no line matched, split the text on semicolons and newlines and keep the
stripped chunks of at least 12 characters; de-duplicate case-insensitively and
keep the first `n`. -/
def parse_objectives_from_text (text : String) (n : Nat) : List String :=
  let lines := ((splitOnPred (fun c => c = '\n' ∨ c = '\r') text.data).map
      (fun l => pyStripList l)).filter (fun l => l ≠ [])
  let obj := lines.filterMap (fun l => line_candidate ⟨l⟩)
  let obj :=
    if obj = [] then
      let parts := ((splitOnPred (fun c => c = ';' ∨ c = '\n') text.data).map
          (fun l => pyStripList l)).filter (fun l => l ≠ [])
      (parts.filter (fun p => 12 ≤ p.length)).map (fun l => (⟨l⟩ : String))
    else obj
  (dedup_ci [] obj).take n

/-- Model of `re.match` against the marker prefix alone (the reason-candidate
check in `fallback_parse_non_json_output`): a marker followed by at least one
whitespace character. -/
def starts_with_list_marker (s : String) : Bool :=
  match markerTail s.data with
  | none => false
  | some tail =>
    match tail with
    | c :: _ => isSpace c
    | [] => false

/-- The first chunk of splitting on a blank line: the text before the first
newline that is followed, after only whitespace, by another newline. -/
def first_paragraph : List Char → List Char
  | [] => []
  | c :: rest =>
    if c = '\n' ∧ (rest.takeWhile isSpace).contains '\n' then []
    else c :: first_paragraph rest

def GENERIC_REASON : String :=
  "Generated defining objectives based on the provided objective and context."

/-- Convert a plain-text model output into the expected response shape
(`fallback_parse_non_json_output`). The raw-start splice in the error message
approximates Python `!r` formatting. -/
def fallback_parse_non_json_output (raw_text : String) (include_reason : Bool)
    (n : Nat) : Except String SimpleRecommendResponse :=
  let cleaned := pyStrip raw_text
  if cleaned = "" then .error "Model returned empty text (expected JSON)."
  else
    let objectives := parse_objectives_from_text cleaned n
    if objectives.length < n then
      .error ("Model output was not valid JSON and fallback parsing found only " ++
        toString objectives.length ++ " objective(s) but numRecommendations=" ++
        toString n ++ ". Raw start: " ++ ⟨cleaned.data.take 120⟩)
    else
      if include_reason then
        let reason_candidate := pyStrip ⟨first_paragraph cleaned.data⟩
        let reason_candidate :=
          if starts_with_list_marker reason_candidate then GENERIC_REASON
          else reason_candidate
        .ok ⟨some (pyStrip ⟨reason_candidate.data.take 600⟩), objectives.take n⟩
      else .ok ⟨none, objectives.take n⟩

def okObjectiveEntry (j : Json) : Bool :=
  match j with
  | Json.str s => pyStrip s ≠ ""
  | _ => false

def stripEntry (j : Json) : String :=
  match j with
  | Json.str s => pyStrip s
  | _ => ""

/-- Semantic validation and shaping of a parsed output
(`validate_and_shape_output`): the parsed value must be an object whose
`definingObjectives` is a list of strings that are all non-empty after
stripping, of length at least `num_recommendations`; the kept entries are the
first `num_recommendations`, stripped; `reason` is required non-empty exactly
when `include_reason` is true and dropped otherwise. -/
def validate_and_shape_output (parsed : Json) (include_reason : Bool)
    (num_recommendations : Nat) : Except String SimpleRecommendResponse :=
  match parsed with
  | Json.obj fields =>
    match jsonGet fields "definingObjectives" with
    | some (Json.arr defining) =>
      if ¬ defining.all okObjectiveEntry then
        .error "Model output \x27definingObjectives\x27 must be a non-empty list of strings"
      else if defining.length < num_recommendations then
        .error ("Model returned " ++ toString defining.length ++
          " definingObjectives but numRecommendations=" ++ toString num_recommendations)
      else
        let shaped := (defining.take num_recommendations).map stripEntry
        if include_reason then
          match jsonGet fields "reason" with
          | some (Json.str reason) =>
            if pyStrip reason = "" then
              .error "Model output missing required non-empty \x27reason\x27"
            else .ok ⟨some (pyStrip reason), shaped⟩
          | _ => .error "Model output missing required non-empty \x27reason\x27"
        else .ok ⟨none, shaped⟩
    | _ => .error "Model output \x27definingObjectives\x27 must be a non-empty list of strings"
  | _ => .error "Model output must be a JSON object"

/-- The recommendation reconciler `recommend_objective`. Parameterized over
`safe_loads` — the `safe_json_loads` import from the absent
`src/inference/utilities.py` — so every theorem about it holds for every
tolerant parser; `client` is the opaque collaborator composed with the text
extractor. The second component records the collaborator invocations (exactly
the one generation call, with `max_tokens=768`). The single `try` block of the
source covers both the parse and the semantic validation, and its bare
`except Exception` routes any failure of either into the fallback. The final
`SimpleRecommendResponse.model_validate(shaped)` of the source is the identity
here, since `shaped` is built with the schema's exact field types. -/
def recommend_objective (safe_loads : String → Except String Json)
    (client : ModelClient) (req : SimpleObjectiveRequest) :
    Except String SimpleRecommendResponse × List BedrockCall :=
  let call : BedrockCall := ⟨SYSTEM_PROMPT_SIMPLE, dumpSimpleRequest req, 768⟩
  let result : Except String SimpleRecommendResponse :=
    match client call.system call.userText with
    | none => .error "Bedrock response did not contain model text"
    | some raw_text =>
      if pyStrip raw_text = "" then .error "Bedrock response did not contain model text"
      else
        let strict : Except String SimpleRecommendResponse :=
          match safe_loads raw_text with
          | .error e => .error e
          | .ok parsed =>
            validate_and_shape_output parsed req.includeReason req.numRecommendations
        match strict with
        | .ok shaped => .ok shaped
        | .error _ =>
          fallback_parse_non_json_output raw_text req.includeReason req.numRecommendations
  (result, [call])

end recommendation

/-! ## Shared prompt constants (`src/docs/descriptions.py`) -/

namespace descriptions

def SYSTEM_PROMPT_TEST_GENERATION : String := "You are a helpful assistant that generates high-quality chatbot test cases in JSON.

Input:
You will receive a JSON payload containing:
- domain: string
- context:
  - description: string
  - language: string (e.g. \"en\")
  - number_of_intents: integer (1..10)
  - userDefinedVariables: object (arbitrary key/value variables)

Output rules (STRICT):
- You MUST return ONLY valid JSON. No markdown. No extra text.
- The first non-whitespace character MUST be \x27\x7b\x27 and the last MUST be \x27\x7d\x27.
- All strings MUST be valid JSON strings (escape quotes like \\\" and newlines like \\n).
- Do NOT include trailing commas.
- Do NOT include any keys other than: domain, language, testCases.

The JSON MUST match EXACTLY this schema:

\x7b
  \"domain\": string,
  \"language\": string,
  \"testCases\": [
    \x7b
      \"name\": string,
      \"description\": string,
      \"persona\": string | null,
      \"userVariables\": object,
      \"steps\": [string, ...],
      \"expected\": [string, ...]
    \x7d
  ]
\x7d

Quality requirements:
- Return AT LEAST (number_of_intents) test cases.
- Each test case should represent a different intent/category relevant to the domain.
- Steps and expected should be concrete and testable, written in the requested language.
"

def SYSTEM_PROMPT_JSON_REPAIR : String := "You are a strict JSON repair tool.

You will be given text that is intended to be JSON but may be invalid.
Your job is to output ONLY valid JSON that matches the required schema below.
No markdown, no commentary, no extra keys.

Required schema:

\x7b
  \"domain\": string,
  \"language\": string,
  \"testCases\": [
    \x7b
      \"name\": string,
      \"description\": string,
      \"persona\": string | null,
      \"userVariables\": object,
      \"steps\": [string, ...],
      \"expected\": [string, ...]
    \x7d
  ]
\x7d

Rules:
- Output must be valid JSON.
- Escape any quotes inside strings properly.
- Remove trailing commas.
- Preserve as much original meaning/content as possible.
"

end descriptions

/-! ## Test-Generation Reconciler, variant 1 (`src/inference/test_generation.py`)

This file defines its own local copies of the prompts; its generation prompt
lacks the first-and-last-character rule present in the `descriptions.py`
version. The Python names `_validate_min_counts`, `_invoke_bedrock_text`, and
`_parse_or_repair_json` are embedded without the leading underscore. -/

namespace test_generation

def SYSTEM_PROMPT_TEST_GENERATION : String := "You are a helpful assistant that generates high-quality chatbot test cases in JSON.

Input:
You will receive a JSON payload containing:
- domain: string
- context:
  - description: string
  - language: string (e.g. \"en\")
  - number_of_intents: integer (1..10)
  - userDefinedVariables: object (arbitrary key/value variables)

Output rules (STRICT):
- You MUST return ONLY valid JSON. No markdown. No extra text.
- All strings MUST be valid JSON strings (escape quotes like \\\" and newlines like \\n).
- Do NOT include trailing commas.
- Do NOT include any keys other than: domain, language, testCases.

The JSON MUST match EXACTLY this schema:

\x7b
  \"domain\": string,
  \"language\": string,
  \"testCases\": [
    \x7b
      \"name\": string,
      \"description\": string,
      \"persona\": string | null,
      \"userVariables\": object,
      \"steps\": [string, ...],
      \"expected\": [string, ...]
    \x7d
  ]
\x7d

Quality requirements:
- Return AT LEAST (number_of_intents) test cases.
- Each test case should represent a different intent/category relevant to the domain.
- Steps and expected should be concrete and testable, written in the requested language.
"

def SYSTEM_PROMPT_JSON_REPAIR : String := "You are a strict JSON repair tool.

You will be given text that is intended to be JSON but may be invalid.
Your job is to output ONLY valid JSON that matches the required schema below.
No markdown, no commentary, no extra keys.

Required schema:

\x7b
  \"domain\": string,
  \"language\": string,
  \"testCases\": [
    \x7b
      \"name\": string,
      \"description\": string,
      \"persona\": string | null,
      \"userVariables\": object,
      \"steps\": [string, ...],
      \"expected\": [string, ...]
    \x7d
  ]
\x7d

Rules:
- Output must be valid JSON.
- Escape any quotes inside strings properly.
- Remove trailing commas.
- Preserve as much original meaning/content as possible.
"

/-- Minimum-count validation (`_validate_min_counts`): `testCases` must be a
non-empty list of length at least `min_cases`. -/
def validate_min_counts (fields : List (String × Json)) (min_cases : Nat) :
    Except String Unit :=
  match jsonGet fields "testCases" with
  | some (Json.arr tcs) =>
    if tcs.isEmpty then .error "Model output must include non-empty \x27testCases\x27 list"
    else if tcs.length < min_cases then
      .error ("Model returned " ++ toString tcs.length ++
        " testCases but minimum required is " ++ toString min_cases)
    else .ok ()
  | _ => .error "Model output must include non-empty \x27testCases\x27 list"

/-- Invoke the collaborator and strip the extracted text, an absent or empty
envelope giving the empty string (`_invoke_bedrock_text`, whose
`(raw or \"\").strip()` maps both an absent text and a whitespace text to
the empty string). -/
def invoke_bedrock_text (client : ModelClient) (system user_text : String)
    (max_tokens : Nat) : String × BedrockCall :=
  (pyStrip ((client system user_text).getD ""), ⟨system, user_text, max_tokens⟩)

/-- Parse, or repair once and re-parse (`_parse_or_repair_json`): on a parse
failure, one repair invocation with the repair prompt and the raw text as the
user message; an empty repair answer or a second parse failure is final. -/
def parse_or_repair_json (safe_loads : String → Except String Json)
    (client : ModelClient) (raw_text : String) :
    Except String Json × List BedrockCall :=
  match safe_loads raw_text with
  | .ok j => (.ok j, [])
  | .error _ =>
    let (repaired_text, call) :=
      invoke_bedrock_text client SYSTEM_PROMPT_JSON_REPAIR raw_text 1400
    if repaired_text = "" then
      (.error "Model returned invalid JSON and repair step returned empty text.", [call])
    else (safe_loads repaired_text, [call])

/-- The test-generation reconciler `generate_test_cases` of
`src/inference/test_generation.py`: generation call (`max_tokens=1100`),
parse-or-repair, object check, minimum-count validation, truth enforcement
(overwrite `domain` and `language` with the request's values), and final
schema validation. -/
def generate_test_cases (safe_loads : String → Except String Json)
    (client : ModelClient) (req : TestGenerationRequest) :
    Except String TestGenerationResponse × List BedrockCall :=
  let (gen_text, gcall) :=
    invoke_bedrock_text client SYSTEM_PROMPT_TEST_GENERATION (dumpTestGenRequest req) 1100
  if gen_text = "" then
    (.error "Bedrock response did not contain model text", [gcall])
  else
    let (parsedE, rcalls) := parse_or_repair_json safe_loads client gen_text
    let result : Except String TestGenerationResponse :=
      match parsedE with
      | .error e => .error e
      | .ok parsed =>
        match parsed with
        | Json.obj fields =>
          match validate_min_counts fields req.context.number_of_intents with
          | .error e => .error e
          | .ok _ =>
            let fields := jsonSet fields "domain" (Json.str req.domain)
            let fields := jsonSet fields "language" (Json.str req.context.language)
            validateTestGenerationResponse (Json.obj fields)
        | _ => .error "Model output must be a JSON object"
    (result, gcall :: rcalls)

end test_generation

/-! ## Test-Generation Reconciler, variant 2 (`src/inference/rec_test_generation.py`)

Identical pipeline, but the prompts are imported from `src/docs/descriptions.py`
(whose generation prompt carries one extra output rule). -/

namespace rec_test_generation

def validate_min_counts (fields : List (String × Json)) (min_cases : Nat) :
    Except String Unit :=
  match jsonGet fields "testCases" with
  | some (Json.arr tcs) =>
    if tcs.isEmpty then .error "Model output must include non-empty \x27testCases\x27 list"
    else if tcs.length < min_cases then
      .error ("Model returned " ++ toString tcs.length ++
        " testCases but minimum required is " ++ toString min_cases)
    else .ok ()
  | _ => .error "Model output must include non-empty \x27testCases\x27 list"

def invoke_bedrock_text (client : ModelClient) (system user_text : String)
    (max_tokens : Nat) : String × BedrockCall :=
  (pyStrip ((client system user_text).getD ""), ⟨system, user_text, max_tokens⟩)

def parse_or_repair_json (safe_loads : String → Except String Json)
    (client : ModelClient) (raw_text : String) :
    Except String Json × List BedrockCall :=
  match safe_loads raw_text with
  | .ok j => (.ok j, [])
  | .error _ =>
    let (repaired_text, call) :=
      invoke_bedrock_text client descriptions.SYSTEM_PROMPT_JSON_REPAIR raw_text 1400
    if repaired_text = "" then
      (.error "Model returned invalid JSON and repair step returned empty text.", [call])
    else (safe_loads repaired_text, [call])

/-- The test-generation reconciler `generate_test_cases` of
`src/inference/rec_test_generation.py`. -/
def generate_test_cases (safe_loads : String → Except String Json)
    (client : ModelClient) (req : TestGenerationRequest) :
    Except String TestGenerationResponse × List BedrockCall :=
  let (gen_text, gcall) :=
    invoke_bedrock_text client descriptions.SYSTEM_PROMPT_TEST_GENERATION
      (dumpTestGenRequest req) 1100
  if gen_text = "" then
    (.error "Bedrock response did not contain model text", [gcall])
  else
    let (parsedE, rcalls) := parse_or_repair_json safe_loads client gen_text
    let result : Except String TestGenerationResponse :=
      match parsedE with
      | .error e => .error e
      | .ok parsed =>
        match parsed with
        | Json.obj fields =>
          match validate_min_counts fields req.context.number_of_intents with
          | .error e => .error e
          | .ok _ =>
            let fields := jsonSet fields "domain" (Json.str req.domain)
            let fields := jsonSet fields "language" (Json.str req.context.language)
            validateTestGenerationResponse (Json.obj fields)
        | _ => .error "Model output must be a JSON object"
    (result, gcall :: rcalls)

end rec_test_generation

/-! ## Supporting lemmas: stripping -/

lemma head?_dropWhile_not (p : Char → Bool) (cs : List Char) :
    ∀ c, (cs.dropWhile p).head? = some c → p c = false := by
  induction cs with
  | nil => simp
  | cons a t ih =>
    intro c hc
    by_cases hp : p a
    · rw [List.dropWhile_cons, if_pos hp] at hc
      exact ih c hc
    · rw [List.dropWhile_cons, if_neg hp, List.head?_cons, Option.some.injEq] at hc
      rw [← hc]
      exact Bool.eq_false_iff.mpr hp

lemma head?_of_front {xs ys : List Char} (hpre : xs <+: ys) {c : Char}
    (hc : xs.head? = some c) : ys.head? = some c := by
  obtain ⟨t, ht⟩ := hpre
  rw [← ht]
  cases xs with
  | nil => simp at hc
  | cons a t2 =>
    simpa using hc

lemma pyStripList_head?_not (cs : List Char) :
    ∀ c, (pyStripList cs).head? = some c → isSpace c = false := by
  intro c hc
  exact head?_dropWhile_not isSpace cs c
    (head?_of_front (List.rdropWhile_prefix isSpace (cs.dropWhile isSpace)) hc)

lemma dropWhile_eq_self_of_head? (p : Char → Bool) (cs : List Char)
    (h : ∀ c, cs.head? = some c → p c = false) : cs.dropWhile p = cs := by
  cases cs with
  | nil => rfl
  | cons c t =>
    rw [List.dropWhile_cons, if_neg]
    simp [h c rfl]

lemma pyStripList_idem (cs : List Char) : pyStripList (pyStripList cs) = pyStripList cs := by
  have h1 : (pyStripList cs).dropWhile isSpace = pyStripList cs :=
    dropWhile_eq_self_of_head? isSpace _ (pyStripList_head?_not cs)
  calc pyStripList (pyStripList cs)
      = ((pyStripList cs).dropWhile isSpace).rdropWhile isSpace := rfl
    _ = (pyStripList cs).rdropWhile isSpace := by rw [h1]
    _ = pyStripList cs := by
        rw [pyStripList, List.rdropWhile_idempotent]

lemma pyStrip_data (s : String) : (pyStrip s).data = pyStripList s.data := rfl

lemma pyStrip_idem (s : String) : pyStrip (pyStrip s) = pyStrip s := by
  apply String.ext
  rw [pyStrip_data, pyStrip_data, pyStripList_idem]

lemma pyStrip_eq_empty_iff (s : String) : pyStrip s = "" ↔ pyStripList s.data = [] := by
  constructor
  · intro h
    have := congrArg String.data h
    simpa [pyStrip] using this
  · intro h
    apply String.ext
    simpa [pyStrip] using h

/-- Stripping a list whose head is not whitespace is non-empty. -/
lemma pyStripList_cons_ne_nil (c : Char) (t : List Char) (hc : isSpace c = false) :
    pyStripList (c :: t) ≠ [] := by
  intro hnil
  have hdrop : (c :: t).dropWhile isSpace = c :: t := by
    rw [List.dropWhile_cons, if_neg]
    simp [hc]
  rw [pyStripList, hdrop, List.rdropWhile_eq_nil_iff] at hnil
  have := hnil c (by simp)
  simp [hc] at this

/-! ## Supporting lemmas: dict update -/

lemma jsonGet_jsonSet_self (fs : List (String × Json)) (k : String) (v : Json) :
    jsonGet (jsonSet fs k v) k = some v := by
  induction fs with
  | nil => simp [jsonSet, jsonGet]
  | cons kv rest ih =>
    by_cases h : kv.1 = k
    · simp [jsonSet, jsonGet, h]
    · simp only [jsonSet, jsonGet, h, if_neg, if_false]
      simpa [h] using ih

/-! ## Supporting lemmas: the recommendation reconciler -/

namespace recommendation

lemma validate_and_shape_ok_inv {parsed : Json} {ir : Bool} {n : Nat}
    {resp : SimpleRecommendResponse}
    (h : validate_and_shape_output parsed ir n = .ok resp) :
    ∃ fields defining,
      parsed = Json.obj fields ∧
      jsonGet fields "definingObjectives" = some (Json.arr defining) ∧
      defining.all okObjectiveEntry = true ∧
      n ≤ defining.length ∧
      resp.definingObjectives = (defining.take n).map stripEntry ∧
      ((ir = true ∧ ∃ r, jsonGet fields "reason" = some (Json.str r) ∧
          pyStrip r ≠ "" ∧ resp.reason = some (pyStrip r)) ∨
       (ir = false ∧ resp.reason = none)) := by
  unfold validate_and_shape_output at h
  split at h
  case h_2 => exact Except.noConfusion h
  case h_1 fields =>
  split at h
  case h_2 => exact Except.noConfusion h
  case h_1 defining hget =>
  refine ⟨fields, defining, rfl, hget, ?_⟩
  split at h
  · exact Except.noConfusion h
  case isFalse hall =>
  split at h
  · exact Except.noConfusion h
  case isFalse hlen =>
  have hall2 : defining.all okObjectiveEntry = true := by
    by_contra hcon
    exact hall (by simpa using hcon)
  have hlen2 : n ≤ defining.length := Nat.le_of_not_lt hlen
  refine ⟨hall2, hlen2, ?_⟩
  split at h
  case isTrue hir =>
    split at h
    case h_1 r hr =>
      split at h
      · exact Except.noConfusion h
      case isFalse hrs =>
        obtain rfl := Except.ok.inj h
        exact ⟨rfl, Or.inl ⟨hir, r, hr, hrs, rfl⟩⟩
    case h_2 => exact Except.noConfusion h
  case isFalse hir =>
    obtain rfl := Except.ok.inj h
    exact ⟨rfl, Or.inr ⟨Bool.eq_false_iff.mpr hir, rfl⟩⟩

lemma recommend_objective_calls (sl : String → Except String Json)
    (client : ModelClient) (req : SimpleObjectiveRequest) :
    (recommend_objective sl client req).2 =
      [⟨SYSTEM_PROMPT_SIMPLE, dumpSimpleRequest req, 768⟩] := rfl

/-- Success inversion for the whole recommendation pipeline: a successful call
obtained a non-blank raw text and produced the response either through the
strict path or through the fallback path. -/
lemma recommend_objective_ok_inv {sl : String → Except String Json}
    {client : ModelClient} {req : SimpleObjectiveRequest}
    {resp : SimpleRecommendResponse}
    (h : (recommend_objective sl client req).1 = .ok resp) :
    ∃ raw, client SYSTEM_PROMPT_SIMPLE (dumpSimpleRequest req) = some raw ∧
      pyStrip raw ≠ "" ∧
      ((∃ parsed, sl raw = .ok parsed ∧
          validate_and_shape_output parsed req.includeReason req.numRecommendations
            = .ok resp) ∨
       fallback_parse_non_json_output raw req.includeReason req.numRecommendations
          = .ok resp) := by
  unfold recommend_objective at h
  simp only at h
  cases hcl : client SYSTEM_PROMPT_SIMPLE (dumpSimpleRequest req) with
  | none =>
    rw [hcl] at h
    exact Except.noConfusion h
  | some raw =>
    rw [hcl] at h
    dsimp only at h
    by_cases hs : pyStrip raw = ""
    · rw [if_pos hs] at h
      exact Except.noConfusion h
    · rw [if_neg hs] at h
      refine ⟨raw, rfl, hs, ?_⟩
      cases hsl : sl raw with
      | error e =>
        rw [hsl] at h
        dsimp only at h
        exact Or.inr h
      | ok parsed =>
        rw [hsl] at h
        dsimp only at h
        cases hv : validate_and_shape_output parsed req.includeReason
            req.numRecommendations with
        | ok shaped =>
          rw [hv] at h
          dsimp only at h
          obtain rfl := Except.ok.inj h
          exact Or.inl ⟨parsed, rfl, hv⟩
        | error e =>
          rw [hv] at h
          dsimp only at h
          exact Or.inr h

/-- When the strict path fails semantically — the output parsed but validation
raised — the bare `except Exception` routes the call into the fallback parser. -/
lemma recommend_objective_validation_failure {sl : String → Except String Json}
    {client : ModelClient} {req : SimpleObjectiveRequest} {raw : String}
    {parsed : Json} {e : String}
    (hcl : client SYSTEM_PROMPT_SIMPLE (dumpSimpleRequest req) = some raw)
    (hs : pyStrip raw ≠ "")
    (hsl : sl raw = .ok parsed)
    (hv : validate_and_shape_output parsed req.includeReason req.numRecommendations
        = .error e) :
    (recommend_objective sl client req).1 =
      fallback_parse_non_json_output raw req.includeReason req.numRecommendations := by
  unfold recommend_objective
  simp only
  rw [hcl]
  dsimp only
  rw [if_neg hs, hsl]
  dsimp only
  rw [hv]

/-- When the raw text does not parse at all, the call is routed into the
fallback parser. -/
lemma recommend_objective_parse_failure {sl : String → Except String Json}
    {client : ModelClient} {req : SimpleObjectiveRequest} {raw : String} {e : String}
    (hcl : client SYSTEM_PROMPT_SIMPLE (dumpSimpleRequest req) = some raw)
    (hs : pyStrip raw ≠ "")
    (hsl : sl raw = .error e) :
    (recommend_objective sl client req).1 =
      fallback_parse_non_json_output raw req.includeReason req.numRecommendations := by
  unfold recommend_objective
  simp only
  rw [hcl]
  dsimp only
  rw [if_neg hs, hsl]

/-- The reason string the fallback attaches when `include_reason` is true. -/
def fallback_reason (cleaned : String) : String :=
  let para := pyStrip ⟨first_paragraph cleaned.data⟩
  let para := if starts_with_list_marker para then GENERIC_REASON else para
  pyStrip ⟨para.data.take 600⟩

lemma fallback_ok_inv {raw : String} {ir : Bool} {n : Nat}
    {resp : SimpleRecommendResponse}
    (h : fallback_parse_non_json_output raw ir n = .ok resp) :
    pyStrip raw ≠ "" ∧
    n ≤ (parse_objectives_from_text (pyStrip raw) n).length ∧
    resp.definingObjectives = (parse_objectives_from_text (pyStrip raw) n).take n ∧
    (ir = true → resp.reason = some (fallback_reason (pyStrip raw))) ∧
    (ir = false → resp.reason = none) := by
  simp only [fallback_parse_non_json_output] at h
  by_cases hne : pyStrip raw = ""
  · rw [if_pos hne] at h
    exact Except.noConfusion h
  · rw [if_neg hne] at h
    by_cases hlen : (parse_objectives_from_text (pyStrip raw) n).length < n
    · rw [if_pos hlen] at h
      exact Except.noConfusion h
    · rw [if_neg hlen] at h
      refine ⟨hne, Nat.le_of_not_lt hlen, ?_⟩
      cases ir with
      | true =>
        rw [if_pos rfl] at h
        obtain rfl := Except.ok.inj h
        exact ⟨rfl, fun _ => rfl, fun hf => Bool.noConfusion hf⟩
      | false =>
        rw [if_neg Bool.false_ne_true] at h
        obtain rfl := Except.ok.inj h
        exact ⟨rfl, fun ht => Bool.noConfusion ht, fun _ => rfl⟩

lemma dedup_ci_subset : ∀ (seen : List String) (xs : List String) (x : String),
    x ∈ dedup_ci seen xs → x ∈ xs := by
  intro seen xs
  induction xs generalizing seen with
  | nil => intro x hx; exact absurd hx (by simp [dedup_ci])
  | cons a t ih =>
    intro x hx
    unfold dedup_ci at hx
    split at hx
    · exact List.mem_cons_of_mem a (ih _ x hx)
    · rcases List.mem_cons.mp hx with rfl | hmem
      · exact List.mem_cons_self _ _
      · exact List.mem_cons_of_mem a (ih _ x hmem)

lemma line_candidate_some {ln x : String} (h : line_candidate ln = some x) :
    pyStrip x = x ∧ x ≠ "" := by
  unfold line_candidate at h
  split at h
  · exact Option.noConfusion h
  case h_2 tl heq =>
  split at h
  case isTrue hcond =>
    obtain ⟨hws, hrem⟩ := hcond
    obtain rfl := Option.some.inj h
    constructor
    · exact pyStrip_idem _
    · cases hdrop : tl.dropWhile isSpace with
      | nil => exact absurd hdrop hrem
      | cons c t =>
        have hc : isSpace c = false := by
          apply head?_dropWhile_not isSpace tl c
          rw [hdrop, List.head?_cons]
        intro hempty
        rw [pyStrip_eq_empty_iff] at hempty
        simp only [hdrop] at hempty
        exact pyStripList_cons_ne_nil c t hc hempty
  · exact Option.noConfusion h

lemma parse_objectives_mem {text : String} {n : Nat} {x : String}
    (hx : x ∈ parse_objectives_from_text text n) : pyStrip x = x ∧ x ≠ "" := by
  unfold parse_objectives_from_text at hx
  have hx2 := dedup_ci_subset _ _ _ (List.mem_of_mem_take hx)
  split at hx2
  case isTrue =>
    -- no marker lines: chunks of the semicolon-and-newline split
    obtain ⟨l, hl, rfl⟩ := List.mem_map.mp hx2
    have hl2 := (List.mem_filter.mp hl).1
    have hlne : l ≠ [] := (List.mem_filter.mp hl2).2 |> of_decide_eq_true
    obtain ⟨part, _, rfl⟩ := List.mem_map.mp (List.mem_filter.mp hl2).1
    constructor
    · apply String.ext
      exact pyStripList_idem part
    · intro hempty
      have : pyStripList part = [] := congrArg String.data hempty
      exact hlne this
  case isFalse =>
    obtain ⟨l, _, hcand⟩ := List.mem_filterMap.mp hx2
    exact line_candidate_some hcand

end recommendation

lemma jsonGet_jsonSet_ne (fs : List (String × Json)) (k q : String) (v : Json)
    (h : k ≠ q) : jsonGet (jsonSet fs k v) q = jsonGet fs q := by
  induction fs with
  | nil => simp [jsonSet, jsonGet, h]
  | cons kv rest ih =>
    by_cases hk : kv.1 = k
    · rw [jsonSet, if_pos hk, jsonGet, if_neg h, jsonGet, if_neg]
      rw [hk]
      exact h
    · rw [jsonSet, if_neg hk, jsonGet, jsonGet]
      by_cases hq : kv.1 = q
      · rw [if_pos hq, if_pos hq]
      · rw [if_neg hq, if_neg hq]
        exact ih

/-! ## Supporting lemmas: schema validation of the test-generation response -/

lemma validateTestCaseList_ok_length :
    ∀ {items : List Json} {tcs : List GeneratedTestCase},
    validateTestCaseList items = .ok tcs → tcs.length = items.length := by
  intro items
  induction items with
  | nil =>
    intro tcs h
    obtain rfl := Except.ok.inj h
    rfl
  | cons j rest ih =>
    intro tcs h
    unfold validateTestCaseList at h
    cases hv : validateGeneratedTestCase j with
    | error e =>
      rw [hv] at h
      exact Except.noConfusion h
    | ok tc =>
      rw [hv] at h
      dsimp only at h
      cases hrest : validateTestCaseList rest with
      | error e =>
        rw [hrest] at h
        exact Except.noConfusion h
      | ok tl =>
        rw [hrest] at h
        dsimp only at h
        obtain rfl := Except.ok.inj h
        simp [ih hrest]

lemma validateTGR_ok_inv {fs : List (String × Json)} {resp : TestGenerationResponse}
    (h : validateTestGenerationResponse (Json.obj fs) = .ok resp) :
    jsonGet fs "domain" = some (Json.str resp.domain) ∧
    jsonGet fs "language" = some (Json.str resp.language) ∧
    ∃ items, jsonGet fs "testCases" = some (Json.arr items) ∧
      resp.testCases.length = items.length := by
  unfold validateTestGenerationResponse at h
  dsimp only at h
  split at h
  case h_2 => exact Except.noConfusion h
  case h_1 domain hdom =>
  split at h
  case h_2 => exact Except.noConfusion h
  case h_1 language hlang =>
  split at h
  case h_2 => exact Except.noConfusion h
  case h_1 items htcs =>
  cases hv : validateTestCaseList items with
  | error e =>
    rw [hv] at h
    exact Except.noConfusion h
  | ok tcs =>
    rw [hv] at h
    dsimp only at h
    obtain rfl := Except.ok.inj h
    exact ⟨hdom, hlang, items, htcs, validateTestCaseList_ok_length hv⟩

namespace test_generation

lemma validate_min_counts_ok_inv {fields : List (String × Json)} {k : Nat}
    (h : validate_min_counts fields k = .ok ()) :
    ∃ tcs, jsonGet fields "testCases" = some (Json.arr tcs) ∧
      tcs.isEmpty = false ∧ k ≤ tcs.length := by
  unfold validate_min_counts at h
  split at h
  case h_2 => exact Except.noConfusion h
  case h_1 tcs htcs =>
  split at h
  · exact Except.noConfusion h
  case isFalse hemp =>
  split at h
  · exact Except.noConfusion h
  case isFalse hlen =>
  exact ⟨tcs, htcs, Bool.eq_false_iff.mpr hemp, Nat.le_of_not_lt hlen⟩

/-- Success inversion for the test-generation pipeline (variant 1): a
successful call got a non-blank generation text, parsed (directly or after
repair) into an object, passed the minimum-count validation, and had its
`domain` and `language` overwritten before the final schema validation. -/
lemma generate_test_cases_ok_inv {sl : String → Except String Json}
    {client : ModelClient} {req : TestGenerationRequest} {resp : TestGenerationResponse}
    (h : (generate_test_cases sl client req).1 = .ok resp) :
    ∃ fields rcalls,
      pyStrip ((client SYSTEM_PROMPT_TEST_GENERATION (dumpTestGenRequest req)).getD "")
        ≠ "" ∧
      parse_or_repair_json sl client
          (pyStrip ((client SYSTEM_PROMPT_TEST_GENERATION (dumpTestGenRequest req)).getD ""))
        = (.ok (Json.obj fields), rcalls) ∧
      validate_min_counts fields req.context.number_of_intents = .ok () ∧
      validateTestGenerationResponse
          (Json.obj (jsonSet (jsonSet fields "domain" (Json.str req.domain))
            "language" (Json.str req.context.language)))
        = .ok resp := by
  unfold generate_test_cases invoke_bedrock_text at h
  dsimp only at h
  by_cases hgen :
      pyStrip ((client SYSTEM_PROMPT_TEST_GENERATION (dumpTestGenRequest req)).getD "") = ""
  · rw [if_pos hgen] at h
    exact Except.noConfusion h
  · rw [if_neg hgen] at h
    rcases hpe : parse_or_repair_json sl client
        (pyStrip ((client SYSTEM_PROMPT_TEST_GENERATION (dumpTestGenRequest req)).getD ""))
      with ⟨parsedE, rcalls⟩
    rw [hpe] at h
    dsimp only at h
    cases parsedE with
    | error e => exact Except.noConfusion h
    | ok parsed =>
      cases parsed with
      | obj fields =>
        dsimp only at h
        cases hmc : validate_min_counts fields req.context.number_of_intents with
        | error e =>
          rw [hmc] at h
          exact Except.noConfusion h
        | ok u =>
          cases u
          rw [hmc] at h
          dsimp only at h
          exact ⟨fields, rcalls, hgen, rfl, hmc, h⟩
      | null => exact Except.noConfusion h
      | bool b => exact Except.noConfusion h
      | numLit l => exact Except.noConfusion h
      | str s => exact Except.noConfusion h
      | arr items => exact Except.noConfusion h

/-- Error propagation: with the pipeline reaching a parsed object that fails
the minimum-count validation, the call fails with that validation's error. -/
lemma generate_test_cases_min_count_failure {sl : String → Except String Json}
    {client : ModelClient} {req : TestGenerationRequest}
    {fields : List (String × Json)} {rcalls : List BedrockCall} {e : String}
    (hgen : pyStrip ((client SYSTEM_PROMPT_TEST_GENERATION (dumpTestGenRequest req)).getD "")
        ≠ "")
    (hpe : parse_or_repair_json sl client
        (pyStrip ((client SYSTEM_PROMPT_TEST_GENERATION (dumpTestGenRequest req)).getD ""))
      = (.ok (Json.obj fields), rcalls))
    (hmc : validate_min_counts fields req.context.number_of_intents = .error e) :
    (generate_test_cases sl client req).1 = .error e := by
  unfold generate_test_cases invoke_bedrock_text
  dsimp only
  rw [if_neg hgen, hpe]
  dsimp only
  rw [hmc]

end test_generation

/-! ## Concrete scenarios

Closed inputs used by the witnesses and counterexamples below: a model output
for the test-generation endpoint, a strict-JSON and a plain-prose output for
the recommendation endpoint, and outputs exercising the failure paths. -/

set_option maxRecDepth 100000

def wTgText : String := "\x7b\"domain\": \"other\", \"language\": \"fr\", \"testCases\": [\x7b\"name\": \"n1\", \"description\": \"d1\", \"persona\": null, \"userVariables\": \x7b\x7d, \"steps\": [\"s\"], \"expected\": [\"e\"]\x7d, \x7b\"name\": \"n2\", \"description\": \"d2\"\x7d, \x7b\"name\": \"n3\", \"description\": \"d3\"\x7d]\x7d"

def wTgClient : ModelClient := fun _ _ => some wTgText

def wTgReq : TestGenerationRequest :=
  { domain := "telecom", context := { description := "billing bot" } }

def wTgResp : TestGenerationResponse :=
  { domain := "telecom", language := "en",
    testCases :=
      [{ name := "n1", description := "d1", persona := none, userVariables := [],
         steps := ["s"], expected := ["e"] },
       { name := "n2", description := "d2" },
       { name := "n3", description := "d3" }] }

/-- A model output with only two test cases, for the under-generation side. -/
def wTgShortText : String := "\x7b\"domain\": \"t\", \"language\": \"en\", \"testCases\": [\x7b\"name\": \"n1\", \"description\": \"d1\"\x7d, \x7b\"name\": \"n2\", \"description\": \"d2\"\x7d]\x7d"

def wTgShortClient : ModelClient := fun _ _ => some wTgShortText

/-- A recommendation request with the defaults (`includeReason = true`,
`numRecommendations = 3`). -/
def wRecReq : SimpleObjectiveRequest := { objective := "What is this extra charge?" }

/-- A strict-JSON model output over-generating four objectives. -/
def wRecStrictText : String := "\x7b\"reason\": \"because of billing\", \"definingObjectives\": [\" a1 \", \"a2\", \"a3\", \"a4\"]\x7d"

def wRecStrictClient : ModelClient := fun _ _ => some wRecStrictText

def wRecStrictResp : SimpleRecommendResponse :=
  { reason := some "because of billing", definingObjectives := ["a1", "a2", "a3"] }

/-- A plain-prose model output: a reasoning paragraph and a numbered list. -/
def wRecFallbackText : String := "Here is my reasoning about the objective.\n\n1. Ask for the invoice date\n2. Ask for the amount\n3. Avoid confirming a cause\n"

def wRecFallbackClient : ModelClient := fun _ _ => some wRecFallbackText

def wRecFallbackResp : SimpleRecommendResponse :=
  { reason := some "Here is my reasoning about the objective.",
    definingObjectives :=
      ["Ask for the invoice date", "Ask for the amount", "Avoid confirming a cause"] }

def wRecCall : BedrockCall :=
  ⟨recommendation.SYSTEM_PROMPT_SIMPLE, dumpSimpleRequest wRecReq, 768⟩

/-- A model output that parses as JSON but carries only two defining
objectives; its `reason` string contains semicolons, so the fallback's
last-resort split finds three long chunks in the raw text. -/
def c1Raw : String := "\x7b\"definingObjectives\": [\"aaaa\", \"bbbb\"], \"reason\": \"alpha alpha alpha; beta beta beta; gamma gamma gamma\"\x7d"

def c1Req : SimpleObjectiveRequest :=
  { objective := "X", includeReason := false, numRecommendations := 3 }

def c1Client : ModelClient := fun _ _ => some c1Raw

/-- A collaborator that answers with valid JSON only when prompted with the
`descriptions.py` generation prompt, and with non-JSON otherwise. -/
def c9Client : ModelClient := fun sys _ =>
  if sys = descriptions.SYSTEM_PROMPT_TEST_GENERATION then some wTgText else some "nope"

/-! ## Supporting lemmas: non-emptiness of the fallback reason -/

lemma pyStrip_head {s : String} (h : pyStrip s ≠ "") :
    ∃ c t, (pyStrip s).data = c :: t ∧ isSpace c = false := by
  cases hc : (pyStrip s).data with
  | nil =>
    exact absurd (String.ext hc) h
  | cons c t =>
    refine ⟨c, t, rfl, ?_⟩
    apply pyStripList_head?_not s.data c
    rw [← pyStrip_data, hc, List.head?_cons]

lemma pyStrip_mk_cons_ne (c : Char) (t : List Char) (hc : isSpace c = false) :
    pyStrip ⟨c :: t⟩ ≠ "" := by
  intro hempty
  rw [pyStrip_eq_empty_iff] at hempty
  exact pyStripList_cons_ne_nil c t hc hempty

lemma first_paragraph_cons (c : Char) (t : List Char) (hc : isSpace c = false) :
    recommendation.first_paragraph (c :: t) = c :: recommendation.first_paragraph t := by
  have hcond : ¬(c = '\n' ∧ (List.takeWhile isSpace t).contains '\n' = true) := by
    rintro ⟨rfl, -⟩
    revert hc
    decide
  conv_lhs => rw [recommendation.first_paragraph]
  rw [if_neg hcond]

lemma pyStrip_mk_take600_ne {x : String} (hx : pyStrip x ≠ "") :
    pyStrip ⟨(pyStrip x).data.take 600⟩ ≠ "" := by
  obtain ⟨c, t, hdata, hc⟩ := pyStrip_head hx
  rw [hdata]
  have h600 : (600 : Nat) = 599 + 1 := rfl
  rw [h600, List.take_succ_cons]
  exact pyStrip_mk_cons_ne c _ hc

lemma generic_reason_strip :
    pyStrip ⟨recommendation.GENERIC_REASON.data.take 600⟩
      = recommendation.GENERIC_REASON := by decide

/-- The reason attached by the fallback path is never empty: either it is the
(non-empty) generic constant, or it is the stripped, truncated first paragraph
of the non-blank cleaned text, which starts with a non-whitespace character. -/
lemma fallback_reason_ne_empty {raw : String} (h : pyStrip raw ≠ "") :
    recommendation.fallback_reason (pyStrip raw) ≠ "" := by
  simp only [recommendation.fallback_reason]
  obtain ⟨c, t, hdata, hc⟩ := pyStrip_head h
  have hpara : pyStrip ⟨recommendation.first_paragraph (pyStrip raw).data⟩ ≠ "" := by
    rw [hdata, first_paragraph_cons c t hc]
    exact pyStrip_mk_cons_ne c _ hc
  by_cases hm : recommendation.starts_with_list_marker
      (pyStrip ⟨recommendation.first_paragraph (pyStrip raw).data⟩) = true
  · rw [if_pos hm]
    decide
  · rw [if_neg hm]
    exact pyStrip_mk_take600_ne hpara

lemma serialize_no_reason {resp : SimpleRecommendResponse} (h : resp.reason = none) :
    jsonGet (serializeRecommendResponse resp) "reason" = none := by
  unfold serializeRecommendResponse
  rw [h]
  dsimp only
  rw [List.nil_append]
  unfold jsonGet
  rw [if_neg (by decide)]
  rfl

lemma parse_objectives_length_le (s : String) (n : Nat) :
    (recommendation.parse_objectives_from_text s n).length ≤ n := by
  simp only [recommendation.parse_objectives_from_text]
  exact List.length_take_le _ _

namespace test_generation

/-- The stripped text of the generation call, as a function of the collaborator
and the request (the value the source binds to `gen_text`). -/
def gen_text (client : ModelClient) (req : TestGenerationRequest) : String :=
  pyStrip ((client SYSTEM_PROMPT_TEST_GENERATION (dumpTestGenRequest req)).getD "")

/-- The stripped text of the repair call (the value the source binds to
`repaired_text` when the generation output fails to parse). -/
def repaired_text (client : ModelClient) (req : TestGenerationRequest) : String :=
  pyStrip ((client SYSTEM_PROMPT_JSON_REPAIR (gen_text client req)).getD "")

end test_generation

/-! ## The claims -/

/-! Call-trace characterizations of the test-generation reconciler. -/

lemma parse_or_repair_calls (sl : String → Except String Json)
    (client : ModelClient) (raw : String) :
    (test_generation.parse_or_repair_json sl client raw).2 =
      match sl raw with
      | .ok _ => []
      | .error _ => [⟨test_generation.SYSTEM_PROMPT_JSON_REPAIR, raw, 1400⟩] := by
  simp only [test_generation.parse_or_repair_json, test_generation.invoke_bedrock_text]
  cases hsl : sl raw with
  | ok j => rfl
  | error e =>
    dsimp only
    by_cases hrep : pyStrip ((client test_generation.SYSTEM_PROMPT_JSON_REPAIR raw).getD "") = ""
    · rw [if_pos hrep]
    · rw [if_neg hrep]

lemma generate_calls_eq (sl : String → Except String Json)
    (client : ModelClient) (req : TestGenerationRequest) :
    (test_generation.generate_test_cases sl client req).2 =
      if test_generation.gen_text client req = "" then
        [⟨test_generation.SYSTEM_PROMPT_TEST_GENERATION, dumpTestGenRequest req, 1100⟩]
      else
        ⟨test_generation.SYSTEM_PROMPT_TEST_GENERATION, dumpTestGenRequest req, 1100⟩ ::
          (test_generation.parse_or_repair_json sl client
            (test_generation.gen_text client req)).2 := by
  simp only [test_generation.generate_test_cases, test_generation.invoke_bedrock_text,
    test_generation.gen_text]
  by_cases hgen : pyStrip ((client test_generation.SYSTEM_PROMPT_TEST_GENERATION
      (dumpTestGenRequest req)).getD "") = ""
  · rw [if_pos hgen, if_pos hgen]
  · rw [if_neg hgen, if_neg hgen]

lemma tg_repair_empty_failure (sl : String → Except String Json)
    (client : ModelClient) (req : TestGenerationRequest) (e : String)
    (hgen : test_generation.gen_text client req ≠ "")
    (hsl : sl (test_generation.gen_text client req) = .error e)
    (hrep : test_generation.repaired_text client req = "") :
    (test_generation.generate_test_cases sl client req).1 =
      .error "Model returned invalid JSON and repair step returned empty text." := by
  unfold test_generation.repaired_text at hrep
  unfold test_generation.gen_text at hgen hsl hrep
  simp only [test_generation.generate_test_cases, test_generation.invoke_bedrock_text,
    test_generation.parse_or_repair_json]
  rw [if_neg hgen, hsl]
  dsimp only
  rw [if_pos hrep]

lemma tg_repair_parse_failure (sl : String → Except String Json)
    (client : ModelClient) (req : TestGenerationRequest) (e e2 : String)
    (hgen : test_generation.gen_text client req ≠ "")
    (hsl : sl (test_generation.gen_text client req) = .error e)
    (hrep : test_generation.repaired_text client req ≠ "")
    (hsl2 : sl (test_generation.repaired_text client req) = .error e2) :
    (test_generation.generate_test_cases sl client req).1 = .error e2 := by
  unfold test_generation.repaired_text at hrep hsl2
  unfold test_generation.gen_text at hgen hsl hrep hsl2
  simp only [test_generation.generate_test_cases, test_generation.invoke_bedrock_text,
    test_generation.parse_or_repair_json]
  rw [if_neg hgen, hsl]
  dsimp only
  rw [if_neg hrep, hsl2]

/-- C6: call discipline of the two reconcilers. (i) The recommendation
reconciler invokes the collaborator exactly once, for every parser,
collaborator, and request. (ii) The test-generation reconciler invokes it at
most twice. (iii) It invokes it twice exactly when the generation output
fails to parse, and then the second call carries the repair prompt and the
generation text. (iv)–(v) If the repair call returns no text, or the repaired
text still fails to parse, the call fails (with the repair-failure message,
respectively the final parse error) — no further invocation exists, by (ii).
(vi) The repair prompt is distinct from the generation prompt. -/
theorem C6_call_discipline :
    (∀ (sl : String → Except String Json) (client : ModelClient)
       (rq : SimpleObjectiveRequest),
       (recommendation.recommend_objective sl client rq).2.length = 1) ∧
    (∀ (sl : String → Except String Json) (client : ModelClient)
       (req : TestGenerationRequest),
       (test_generation.generate_test_cases sl client req).2.length ≤ 2) ∧
    (∀ (sl : String → Except String Json) (client : ModelClient)
       (req : TestGenerationRequest),
       (test_generation.generate_test_cases sl client req).2.length = 2 →
       (∃ e, sl (test_generation.gen_text client req) = .error e) ∧
       (test_generation.generate_test_cases sl client req).2 =
         [⟨test_generation.SYSTEM_PROMPT_TEST_GENERATION, dumpTestGenRequest req, 1100⟩,
          ⟨test_generation.SYSTEM_PROMPT_JSON_REPAIR,
            test_generation.gen_text client req, 1400⟩]) ∧
    (∀ (sl : String → Except String Json) (client : ModelClient)
       (req : TestGenerationRequest) (e : String),
       test_generation.gen_text client req ≠ "" →
       sl (test_generation.gen_text client req) = .error e →
       test_generation.repaired_text client req = "" →
       (test_generation.generate_test_cases sl client req).1 =
         .error "Model returned invalid JSON and repair step returned empty text.") ∧
    (∀ (sl : String → Except String Json) (client : ModelClient)
       (req : TestGenerationRequest) (e e2 : String),
       test_generation.gen_text client req ≠ "" →
       sl (test_generation.gen_text client req) = .error e →
       test_generation.repaired_text client req ≠ "" →
       sl (test_generation.repaired_text client req) = .error e2 →
       (test_generation.generate_test_cases sl client req).1 = .error e2) ∧
    test_generation.SYSTEM_PROMPT_JSON_REPAIR
      ≠ test_generation.SYSTEM_PROMPT_TEST_GENERATION := by
  refine ⟨?_, ?_, ?_, tg_repair_empty_failure, tg_repair_parse_failure, by decide⟩
  · intro sl client rq
    rw [recommendation.recommend_objective_calls]
    rfl
  · intro sl client req
    rw [generate_calls_eq]
    by_cases hgen : test_generation.gen_text client req = ""
    · rw [if_pos hgen]
      simp
    · rw [if_neg hgen, List.length_cons, parse_or_repair_calls]
      cases hsl : sl (test_generation.gen_text client req) with
      | ok j => simp
      | error e => simp
  · intro sl client req h
    rw [generate_calls_eq] at h ⊢
    by_cases hgen : test_generation.gen_text client req = ""
    · rw [if_pos hgen] at h
      simp at h
    · rw [if_neg hgen, parse_or_repair_calls] at h ⊢
      cases hsl : sl (test_generation.gen_text client req) with
      | ok j =>
        rw [hsl] at h
        simp at h
      | error e =>
        dsimp only
        exact ⟨⟨e, rfl⟩, rfl⟩

/-- Witness for C6 at concrete inputs: the successful test-generation scenario
makes one call; with an unparseable generation output and an unparseable
repair answer, the call trace has exactly the generation and repair calls and
the call fails. -/
theorem C6_call_discipline_witness :
    (recommendation.recommend_objective safe_json_loads wRecStrictClient wRecReq).2.length
      = 1 ∧
    (test_generation.generate_test_cases safe_json_loads wTgClient wTgReq).2.length ≤ 2 ∧
    (test_generation.generate_test_cases safe_json_loads
        (fun _ _ => some "garbage text") wTgReq).1
      = .error "Could not parse JSON from model output: garbage text" := by
  refine ⟨C6_call_discipline.1 safe_json_loads wRecStrictClient wRecReq,
    C6_call_discipline.2.1 safe_json_loads wTgClient wTgReq, ?_⟩
  exact C6_call_discipline.2.2.2.2.1 safe_json_loads (fun _ _ => some "garbage text")
    wTgReq "Could not parse JSON from model output: garbage text"
    "Could not parse JSON from model output: garbage text"
    (by decide) (by rfl) (by decide) (by rfl)

/-- C7: the fallback extractor, end to end. (a) When the model output does not
parse as JSON and the call nevertheless succeeds, the response's
`definingObjectives` are exactly the first `numRecommendations` candidates
that survive case-insensitive first-seen de-duplication, and at least that
many survive. (b) The candidate list is, in source order, the trailing text
of each non-empty (stripped) line beginning with a numbered or bulleted
marker; if no line matches, the chunks of at least 12 characters obtained by
splitting the raw text on semicolons and newlines. -/
theorem C7_fallback_extraction :
    (∀ (sl : String → Except String Json) (client : ModelClient)
       (req : SimpleObjectiveRequest) (raw e : String)
       (resp : SimpleRecommendResponse) (calls : List BedrockCall),
       client recommendation.SYSTEM_PROMPT_SIMPLE (dumpSimpleRequest req) = some raw →
       pyStrip raw ≠ "" →
       sl raw = .error e →
       recommendation.recommend_objective sl client req = (.ok resp, calls) →
       resp.definingObjectives
         = recommendation.parse_objectives_from_text (pyStrip raw)
             req.numRecommendations ∧
       resp.definingObjectives.length = req.numRecommendations) ∧
    (∀ (text : String) (n : Nat),
       recommendation.parse_objectives_from_text text n =
         (recommendation.dedup_ci []
           (if (((splitOnPred (fun c => c = '\n' ∨ c = '\r') text.data).map
                  (fun l => pyStripList l)).filter (fun l => l ≠ [])).filterMap
                  (fun l => recommendation.line_candidate ⟨l⟩) = []
            then (((((splitOnPred (fun c => c = ';' ∨ c = '\n') text.data).map
                  (fun l => pyStripList l)).filter (fun l => l ≠ [])).filter
                  (fun p => 12 ≤ p.length)).map (fun l => (⟨l⟩ : String)))
            else (((splitOnPred (fun c => c = '\n' ∨ c = '\r') text.data).map
                  (fun l => pyStripList l)).filter (fun l => l ≠ [])).filterMap
                  (fun l => recommendation.line_candidate ⟨l⟩))).take n) := by
  constructor
  · intro sl client req raw e resp calls hcl hs hparse hok
    have h1 : (recommendation.recommend_objective sl client req).1 = .ok resp := by
      rw [hok]
    rw [recommendation.recommend_objective_parse_failure hcl hs hparse] at h1
    obtain ⟨-, hlen, hdef, -, -⟩ := recommendation.fallback_ok_inv h1
    have htake : (recommendation.parse_objectives_from_text (pyStrip raw)
        req.numRecommendations).take req.numRecommendations
        = recommendation.parse_objectives_from_text (pyStrip raw)
            req.numRecommendations :=
      List.take_of_length_le (parse_objectives_length_le _ _)
    rw [htake] at hdef
    refine ⟨hdef, ?_⟩
    rw [hdef]
    exact Nat.le_antisymm (parse_objectives_length_le _ _) hlen
  · intro text n
    rfl

/-- Witness for C7 at a concrete input: the prose output with a numbered list
of three items yields exactly those three items, in order. -/
theorem C7_fallback_extraction_witness :
    wRecFallbackResp.definingObjectives
      = recommendation.parse_objectives_from_text (pyStrip wRecFallbackText) 3 ∧
    wRecFallbackResp.definingObjectives
      = ["Ask for the invoice date", "Ask for the amount", "Avoid confirming a cause"] := by
  have h := C7_fallback_extraction.1 safe_json_loads wRecFallbackClient wRecReq
    wRecFallbackText
    ("Could not parse JSON from model output: " ++ wRecFallbackText)
    wRecFallbackResp [wRecCall] (by rfl) (by decide) (by rfl) (by rfl)
  exact ⟨h.1, rfl⟩

/-- C8: the fallback reason. When the model output does not parse as JSON,
the call succeeds, and `includeReason` is true, the response's reason is the
stripped first paragraph of the raw text (the text up to the first blank
line, truncated to 600 characters) — unless that paragraph itself begins with
a numbered or bulleted list marker, in which case the generic fixed reason
string is substituted. -/
theorem C8_fallback_reason (sl : String → Except String Json)
    (client : ModelClient) (req : SimpleObjectiveRequest) (raw e : String)
    (resp : SimpleRecommendResponse) (calls : List BedrockCall)
    (hcl : client recommendation.SYSTEM_PROMPT_SIMPLE (dumpSimpleRequest req) = some raw)
    (hs : pyStrip raw ≠ "")
    (hparse : sl raw = .error e)
    (hir : req.includeReason = true)
    (hok : recommendation.recommend_objective sl client req = (.ok resp, calls)) :
    (recommendation.starts_with_list_marker
        (pyStrip ⟨recommendation.first_paragraph (pyStrip raw).data⟩) = true →
      resp.reason = some recommendation.GENERIC_REASON) ∧
    (recommendation.starts_with_list_marker
        (pyStrip ⟨recommendation.first_paragraph (pyStrip raw).data⟩) = false →
      resp.reason = some (pyStrip
        ⟨(pyStrip ⟨recommendation.first_paragraph (pyStrip raw).data⟩).data.take 600⟩)) := by
  have h1 : (recommendation.recommend_objective sl client req).1 = .ok resp := by
    rw [hok]
  rw [recommendation.recommend_objective_parse_failure hcl hs hparse] at h1
  obtain ⟨-, -, -, htrue, -⟩ := recommendation.fallback_ok_inv h1
  have hreason := htrue hir
  simp only [recommendation.fallback_reason] at hreason
  constructor
  · intro hm
    rw [if_pos hm] at hreason
    rw [hreason, generic_reason_strip]
  · intro hm
    rw [if_neg (by rw [hm]; exact Bool.false_ne_true)] at hreason
    exact hreason

/-- Witness for C8 at a concrete input: the prose output's first paragraph is
not a list item, so the reason is that paragraph itself. -/
theorem C8_fallback_reason_witness :
    wRecFallbackResp.reason = some "Here is my reasoning about the objective." := by
  have h := C8_fallback_reason safe_json_loads wRecFallbackClient wRecReq
    wRecFallbackText
    ("Could not parse JSON from model output: " ++ wRecFallbackText)
    wRecFallbackResp [wRecCall] (by rfl) (by decide) (by rfl) rfl (by rfl)
  exact (h.2 (by decide)).trans (by rfl)

/-- C2: deterministic output length. (a) For every valid request, every
successful call — through either path — returns exactly `numRecommendations`
defining objectives. (b) Strict path: a successful validation keeps precisely
the first `numRecommendations` entries of the parsed list (stripped), and the
parsed list had at least that many entries. (c)–(d) Completeness: a parsed
object whose `definingObjectives` are at least `numRecommendations` valid
strings (with a valid `reason` when required) validates successfully, to
exactly the first `numRecommendations` stripped entries. (e) Fallback path:
a successful fallback returns exactly the extracted candidate list, whose
length is the requested count. -/
theorem C2_truncation :
    (∀ (sl : String → Except String Json) (client : ModelClient)
       (req : SimpleObjectiveRequest) (resp : SimpleRecommendResponse)
       (calls : List BedrockCall),
       req.Valid →
       recommendation.recommend_objective sl client req = (.ok resp, calls) →
       resp.definingObjectives.length = req.numRecommendations) ∧
    (∀ (fields : List (String × Json)) (defining : List Json) (ir : Bool)
       (n : Nat) (resp : SimpleRecommendResponse),
       jsonGet fields "definingObjectives" = some (Json.arr defining) →
       recommendation.validate_and_shape_output (Json.obj fields) ir n = .ok resp →
       resp.definingObjectives = (defining.take n).map recommendation.stripEntry ∧
       n ≤ defining.length) ∧
    (∀ (fields : List (String × Json)) (defining : List Json) (n : Nat),
       jsonGet fields "definingObjectives" = some (Json.arr defining) →
       defining.all recommendation.okObjectiveEntry = true →
       n ≤ defining.length →
       recommendation.validate_and_shape_output (Json.obj fields) false n
         = .ok ⟨none, (defining.take n).map recommendation.stripEntry⟩) ∧
    (∀ (fields : List (String × Json)) (defining : List Json) (n : Nat) (r : String),
       jsonGet fields "definingObjectives" = some (Json.arr defining) →
       defining.all recommendation.okObjectiveEntry = true →
       n ≤ defining.length →
       jsonGet fields "reason" = some (Json.str r) →
       pyStrip r ≠ "" →
       recommendation.validate_and_shape_output (Json.obj fields) true n
         = .ok ⟨some (pyStrip r), (defining.take n).map recommendation.stripEntry⟩) ∧
    (∀ (raw : String) (ir : Bool) (n : Nat) (resp : SimpleRecommendResponse),
       recommendation.fallback_parse_non_json_output raw ir n = .ok resp →
       resp.definingObjectives
         = recommendation.parse_objectives_from_text (pyStrip raw) n ∧
       resp.definingObjectives.length = n) := by
  have hfall : ∀ (raw : String) (ir : Bool) (n : Nat) (resp : SimpleRecommendResponse),
      recommendation.fallback_parse_non_json_output raw ir n = .ok resp →
      resp.definingObjectives
        = recommendation.parse_objectives_from_text (pyStrip raw) n ∧
      resp.definingObjectives.length = n := by
    intro raw ir n resp h
    obtain ⟨-, hlen, hdef, -, -⟩ := recommendation.fallback_ok_inv h
    have htake : (recommendation.parse_objectives_from_text (pyStrip raw) n).take n
        = recommendation.parse_objectives_from_text (pyStrip raw) n :=
      List.take_of_length_le (parse_objectives_length_le _ _)
    rw [htake] at hdef
    refine ⟨hdef, ?_⟩
    rw [hdef]
    exact Nat.le_antisymm (parse_objectives_length_le _ _) hlen
  refine ⟨?_, ?_, ?_, ?_, hfall⟩
  · intro sl client req resp calls hvalid h
    have h1 : (recommendation.recommend_objective sl client req).1 = .ok resp := by
      rw [h]
    obtain ⟨raw, hcl, hs, hcase⟩ := recommendation.recommend_objective_ok_inv h1
    rcases hcase with ⟨parsed, hsl, hv⟩ | hfb
    · obtain ⟨fields, defining, -, -, -, hlen, hdef, -⟩ :=
        recommendation.validate_and_shape_ok_inv hv
      rw [hdef, List.length_map, List.length_take]
      exact Nat.min_eq_left hlen
    · exact (hfall raw req.includeReason req.numRecommendations resp hfb).2
  · intro fields defining ir n resp hget hv
    obtain ⟨fields2, defining2, hobj, hget2, -, hlen, hdef, -⟩ :=
      recommendation.validate_and_shape_ok_inv hv
    injection hobj with hfields
    subst hfields
    rw [hget] at hget2
    have := Option.some.inj hget2
    injection this with hdefining
    subst hdefining
    exact ⟨hdef, hlen⟩
  · intro fields defining n hget hall hlen
    unfold recommendation.validate_and_shape_output
    dsimp only
    rw [hget]
    dsimp only
    rw [if_neg (by rw [hall]; exact fun hcon => hcon rfl),
      if_neg (Nat.not_lt.mpr hlen)]
    rfl
  · intro fields defining n r hget hall hlen hr hrs
    unfold recommendation.validate_and_shape_output
    dsimp only
    rw [hget]
    dsimp only
    rw [if_neg (by rw [hall]; exact fun hcon => hcon rfl),
      if_neg (Nat.not_lt.mpr hlen), hr]
    dsimp only
    rw [if_neg hrs]
    rfl

/-- Witness for C2 at concrete inputs: with `numRecommendations = 3`, the
four-objective strict output and the three-item prose output both yield
exactly three defining objectives. -/
theorem C2_truncation_witness :
    wRecReq.Valid ∧
    wRecStrictResp.definingObjectives.length = wRecReq.numRecommendations ∧
    wRecFallbackResp.definingObjectives.length = wRecReq.numRecommendations := by
  have hvalid : wRecReq.Valid := ⟨by decide, by decide, by decide⟩
  refine ⟨hvalid, ?_, ?_⟩
  · exact C2_truncation.1 safe_json_loads wRecStrictClient wRecReq wRecStrictResp
      [wRecCall] hvalid (by rfl)
  · exact C2_truncation.1 safe_json_loads wRecFallbackClient wRecReq wRecFallbackResp
      [wRecCall] hvalid (by rfl)

/-- C3: reason presence is a strict function of the request. For every
successful recommendation call, the response's `reason` is present exactly when
`includeReason` was true; when present it is non-empty; and when
`includeReason` was false the serialized response object (serialization
excludes `None` fields, per the route's `response_model_exclude_none=True`)
has no `reason` key at all, whatever the model supplied. -/
theorem C3_reason_presence (sl : String → Except String Json)
    (client : ModelClient) (req : SimpleObjectiveRequest)
    (resp : SimpleRecommendResponse) (calls : List BedrockCall)
    (h : recommendation.recommend_objective sl client req = (.ok resp, calls)) :
    resp.reason.isSome = req.includeReason ∧
    (req.includeReason = true → ∃ s, resp.reason = some s ∧ s ≠ "") ∧
    (req.includeReason = false →
      jsonGet (serializeRecommendResponse resp) "reason" = none) := by
  have h1 : (recommendation.recommend_objective sl client req).1 = .ok resp := by
    rw [h]
  obtain ⟨raw, hcl, hs, hcase⟩ := recommendation.recommend_objective_ok_inv h1
  rcases hcase with ⟨parsed, hsl, hv⟩ | hfb
  · obtain ⟨fields, defining, -, -, -, -, -, hreason⟩ :=
      recommendation.validate_and_shape_ok_inv hv
    rcases hreason with ⟨hir, r, -, hrne, hsome⟩ | ⟨hir, hnone⟩
    · refine ⟨by rw [hsome, hir]; rfl, fun _ => ⟨pyStrip r, hsome, hrne⟩, fun hf => ?_⟩
      rw [hir] at hf
      exact Bool.noConfusion hf
    · refine ⟨by rw [hnone, hir]; rfl, fun ht => ?_, fun _ => serialize_no_reason hnone⟩
      rw [hir] at ht
      exact Bool.noConfusion ht
  · obtain ⟨hne, -, -, htrue, hfalse⟩ := recommendation.fallback_ok_inv hfb
    cases hir : req.includeReason with
    | true =>
      have hsome := htrue hir
      exact ⟨by rw [hsome]; rfl,
        fun _ => ⟨_, hsome, fallback_reason_ne_empty hne⟩,
        fun hf => Bool.noConfusion hf⟩
    | false =>
      have hnone := hfalse hir
      exact ⟨by rw [hnone]; rfl,
        fun ht => Bool.noConfusion ht,
        fun _ => serialize_no_reason hnone⟩

/-- Witness for C3 at concrete inputs: with `includeReason = true` both the
strict and the fallback scenario carry a non-empty reason. -/
theorem C3_reason_presence_witness :
    (wRecStrictResp.reason.isSome = wRecReq.includeReason ∧
      ∃ s, wRecStrictResp.reason = some s ∧ s ≠ "") ∧
    (wRecFallbackResp.reason.isSome = wRecReq.includeReason ∧
      ∃ s, wRecFallbackResp.reason = some s ∧ s ≠ "") := by
  constructor
  · obtain ⟨h1, h2, -⟩ := C3_reason_presence safe_json_loads wRecStrictClient
      wRecReq wRecStrictResp [wRecCall] (by rfl)
    exact ⟨h1, h2 rfl⟩
  · obtain ⟨h1, h2, -⟩ := C3_reason_presence safe_json_loads wRecFallbackClient
      wRecReq wRecFallbackResp [wRecCall] (by rfl)
    exact ⟨h1, h2 rfl⟩

/-- C10: invariant of every successful recommendation response, in both the
strict and the fallback path: every element of `definingObjectives` is a
non-empty string with no leading or trailing whitespace (stripping it is the
identity). -/
theorem C10_objectives_trimmed (sl : String → Except String Json)
    (client : ModelClient) (req : SimpleObjectiveRequest)
    (resp : SimpleRecommendResponse) (calls : List BedrockCall)
    (h : recommendation.recommend_objective sl client req = (.ok resp, calls)) :
    ∀ x ∈ resp.definingObjectives, x ≠ "" ∧ pyStrip x = x := by
  have h1 : (recommendation.recommend_objective sl client req).1 = .ok resp := by
    rw [h]
  obtain ⟨raw, hcl, hs, hcase⟩ := recommendation.recommend_objective_ok_inv h1
  intro x hx
  rcases hcase with ⟨parsed, hsl, hv⟩ | hfb
  · obtain ⟨fields, defining, -, -, hall, -, hdef, -⟩ :=
      recommendation.validate_and_shape_ok_inv hv
    rw [hdef] at hx
    obtain ⟨j, hj, rfl⟩ := List.mem_map.mp hx
    have hjall := (List.all_eq_true.mp hall) j (List.mem_of_mem_take hj)
    cases j with
    | str s =>
      have hsne : pyStrip s ≠ "" := by
        simpa [recommendation.okObjectiveEntry] using hjall
      exact ⟨hsne, pyStrip_idem s⟩
    | null => simp [recommendation.okObjectiveEntry] at hjall
    | bool b => simp [recommendation.okObjectiveEntry] at hjall
    | numLit l => simp [recommendation.okObjectiveEntry] at hjall
    | arr items => simp [recommendation.okObjectiveEntry] at hjall
    | obj fs => simp [recommendation.okObjectiveEntry] at hjall
  · obtain ⟨-, -, hdef, -, -⟩ := recommendation.fallback_ok_inv hfb
    rw [hdef] at hx
    obtain ⟨h1, h2⟩ :=
      recommendation.parse_objectives_mem (List.mem_of_mem_take hx)
    exact ⟨h2, h1⟩

/-- Witness for C10 at a concrete input: each of the three objectives of the
strict scenario is non-empty and strip-invariant. -/
theorem C10_objectives_trimmed_witness :
    ("a1" ≠ "" ∧ pyStrip "a1" = "a1") ∧
    ("a2" ≠ "" ∧ pyStrip "a2" = "a2") ∧
    ("a3" ≠ "" ∧ pyStrip "a3" = "a3") :=
  have h := C10_objectives_trimmed safe_json_loads wRecStrictClient wRecReq
    wRecStrictResp [wRecCall] (by rfl)
  ⟨h "a1" (by decide), h "a2" (by decide), h "a3" (by decide)⟩

/-- C4: truth enforcement in test generation — for every tolerant parser,
collaborator, and request, a successful response's `domain` equals the
request's `domain` and its `language` equals the request's `context.language`,
regardless of what the (parsed or repaired) model output contained. -/
theorem C4_truth_enforcement (sl : String → Except String Json)
    (client : ModelClient) (req : TestGenerationRequest)
    (resp : TestGenerationResponse) (calls : List BedrockCall)
    (h : test_generation.generate_test_cases sl client req = (.ok resp, calls)) :
    resp.domain = req.domain ∧ resp.language = req.context.language := by
  have h1 : (test_generation.generate_test_cases sl client req).1 = .ok resp := by
    rw [h]
  obtain ⟨fields, rcalls, hgen, hpe, hmc, hval⟩ :=
    test_generation.generate_test_cases_ok_inv h1
  obtain ⟨hdom, hlang, _⟩ := validateTGR_ok_inv hval
  constructor
  · have hd : jsonGet (jsonSet (jsonSet fields "domain" (Json.str req.domain))
        "language" (Json.str req.context.language)) "domain"
        = some (Json.str req.domain) := by
      rw [jsonGet_jsonSet_ne _ _ _ _ (by decide), jsonGet_jsonSet_self]
    rw [hd] at hdom
    have h2 := Option.some.inj hdom
    injection h2 with h3
    exact h3.symm
  · have hl : jsonGet (jsonSet (jsonSet fields "domain" (Json.str req.domain))
        "language" (Json.str req.context.language)) "language"
        = some (Json.str req.context.language) := jsonGet_jsonSet_self _ _ _
    rw [hl] at hlang
    have h2 := Option.some.inj hlang
    injection h2 with h3
    exact h3.symm

/-- Witness for C4 at a concrete request and collaborator: the model said
domain `other` and language `fr`, the response carries the request's
`telecom` and `en`. -/
theorem C4_truth_enforcement_witness :
    wTgResp.domain = wTgReq.domain ∧ wTgResp.language = wTgReq.context.language :=
  C4_truth_enforcement safe_json_loads wTgClient wTgReq wTgResp
    [⟨test_generation.SYSTEM_PROMPT_TEST_GENERATION, dumpTestGenRequest wTgReq, 1100⟩]
    (by rfl)

/-- C5: minimum-count enforcement in test generation. (a) With the pipeline
reaching a parsed object whose `testCases` entry is missing, not a list, or a
list shorter than `number_of_intents` (which subsumes the empty list for a
valid request with `number_of_intents ≥ 1`), the call fails. (b) Every
successful response carries at least `number_of_intents` test cases. (c) A
successful response carries exactly the parsed output's test cases — one
response case per parsed case, never padded with synthetic cases. -/
theorem C5_min_count_enforcement :
    (∀ (sl : String → Except String Json) (client : ModelClient)
       (req : TestGenerationRequest) (fields : List (String × Json))
       (rcalls : List BedrockCall),
       test_generation.gen_text client req ≠ "" →
       test_generation.parse_or_repair_json sl client
           (test_generation.gen_text client req) = (.ok (Json.obj fields), rcalls) →
       ((∀ tcs, jsonGet fields "testCases" ≠ some (Json.arr tcs)) ∨
        (∃ tcs, jsonGet fields "testCases" = some (Json.arr tcs) ∧
           tcs.length < req.context.number_of_intents)) →
       ∃ e, (test_generation.generate_test_cases sl client req).1 = .error e) ∧
    (∀ (sl : String → Except String Json) (client : ModelClient)
       (req : TestGenerationRequest) (resp : TestGenerationResponse)
       (calls : List BedrockCall),
       test_generation.generate_test_cases sl client req = (.ok resp, calls) →
       req.context.number_of_intents ≤ resp.testCases.length) ∧
    (∀ (sl : String → Except String Json) (client : ModelClient)
       (req : TestGenerationRequest) (resp : TestGenerationResponse)
       (calls : List BedrockCall) (fields : List (String × Json))
       (rcalls : List BedrockCall) (tcs : List Json),
       test_generation.generate_test_cases sl client req = (.ok resp, calls) →
       test_generation.parse_or_repair_json sl client
           (test_generation.gen_text client req) = (.ok (Json.obj fields), rcalls) →
       jsonGet fields "testCases" = some (Json.arr tcs) →
       resp.testCases.length = tcs.length) := by
  refine ⟨?_, ?_, ?_⟩
  · intro sl client req fields rcalls hgen hpe hD
    have hmc : ∃ e, test_generation.validate_min_counts fields
        req.context.number_of_intents = .error e := by
      unfold test_generation.validate_min_counts
      cases htc : jsonGet fields "testCases" with
      | none => exact ⟨_, rfl⟩
      | some j =>
        cases j with
        | arr tcs =>
          dsimp only
          rcases hD with hD1 | ⟨tcs2, htc2, hlen⟩
          · exact absurd htc (hD1 tcs)
          · rw [htc] at htc2
            have harr := Option.some.inj htc2
            injection harr with harr2
            subst harr2
            by_cases hemp : tcs.isEmpty
            · rw [if_pos hemp]
              exact ⟨_, rfl⟩
            · rw [if_neg hemp, if_pos hlen]
              exact ⟨_, rfl⟩
        | null => exact ⟨_, rfl⟩
        | bool b => exact ⟨_, rfl⟩
        | numLit l => exact ⟨_, rfl⟩
        | str s => exact ⟨_, rfl⟩
        | obj fs2 => exact ⟨_, rfl⟩
    obtain ⟨e, hmc⟩ := hmc
    exact ⟨e, test_generation.generate_test_cases_min_count_failure hgen hpe hmc⟩
  · intro sl client req resp calls h
    have h1 : (test_generation.generate_test_cases sl client req).1 = .ok resp := by
      rw [h]
    obtain ⟨fields, rcalls, hgen, hpe, hmc, hval⟩ :=
      test_generation.generate_test_cases_ok_inv h1
    obtain ⟨tcs, htcs, _, hk⟩ := test_generation.validate_min_counts_ok_inv hmc
    obtain ⟨_, _, items, hitems, hlen⟩ := validateTGR_ok_inv hval
    have hsame : jsonGet (jsonSet (jsonSet fields "domain" (Json.str req.domain))
        "language" (Json.str req.context.language)) "testCases"
        = jsonGet fields "testCases" := by
      rw [jsonGet_jsonSet_ne _ _ _ _ (by decide), jsonGet_jsonSet_ne _ _ _ _ (by decide)]
    rw [hsame, htcs] at hitems
    have harr := Option.some.inj hitems
    injection harr with harr2
    rw [hlen, ← harr2]
    exact hk
  · intro sl client req resp calls fields rcalls tcs h hpe htcs
    have h1 : (test_generation.generate_test_cases sl client req).1 = .ok resp := by
      rw [h]
    obtain ⟨fields2, rcalls2, hgen, hpe2, hmc, hval⟩ :=
      test_generation.generate_test_cases_ok_inv h1
    have hfst := congrArg Prod.fst ((hpe2.symm).trans hpe)
    have hok := Except.ok.inj hfst
    injection hok with hfields
    subst hfields
    obtain ⟨_, _, items, hitems, hlen⟩ := validateTGR_ok_inv hval
    have hsame : jsonGet (jsonSet (jsonSet fields2 "domain" (Json.str req.domain))
        "language" (Json.str req.context.language)) "testCases"
        = jsonGet fields2 "testCases" := by
      rw [jsonGet_jsonSet_ne _ _ _ _ (by decide), jsonGet_jsonSet_ne _ _ _ _ (by decide)]
    rw [hsame, htcs] at hitems
    have harr := Option.some.inj hitems
    injection harr with harr2
    rw [hlen, ← harr2]

/-- Witness for C5 at concrete inputs: with `number_of_intents = 3`, a model
output carrying only two test cases makes the call fail, and the successful
three-case scenario returns at least three — in fact exactly the parsed
three — test cases. -/
theorem C5_min_count_enforcement_witness :
    (∃ e, (test_generation.generate_test_cases safe_json_loads wTgShortClient
        wTgReq).1 = .error e) ∧
    wTgReq.context.number_of_intents ≤ wTgResp.testCases.length ∧
    wTgResp.testCases.length = 3 := by
  refine ⟨?_, ?_, rfl⟩
  · refine C5_min_count_enforcement.1 safe_json_loads wTgShortClient wTgReq
      [("domain", Json.str "t"), ("language", Json.str "en"),
       ("testCases", Json.arr [Json.obj [("name", Json.str "n1"), ("description", Json.str "d1")],
                               Json.obj [("name", Json.str "n2"), ("description", Json.str "d2")]])]
      [] (by decide) (by rfl) ?_
    exact Or.inr ⟨_, by rfl, by decide⟩
  · exact C5_min_count_enforcement.2.1 safe_json_loads wTgClient wTgReq wTgResp
      [⟨test_generation.SYSTEM_PROMPT_TEST_GENERATION, dumpTestGenRequest wTgReq, 1100⟩]
      (by rfl)

namespace rec_test_generation

/-- The stripped generation-call text of variant 2 (which prompts with the
`descriptions.py` generation prompt). -/
def gen_text (client : ModelClient) (req : TestGenerationRequest) : String :=
  pyStrip ((client descriptions.SYSTEM_PROMPT_TEST_GENERATION (dumpTestGenRequest req)).getD "")

end rec_test_generation

lemma rec_parse_or_repair_calls (sl : String → Except String Json)
    (client : ModelClient) (raw : String) :
    (rec_test_generation.parse_or_repair_json sl client raw).2 =
      match sl raw with
      | .ok _ => []
      | .error _ => [⟨descriptions.SYSTEM_PROMPT_JSON_REPAIR, raw, 1400⟩] := by
  simp only [rec_test_generation.parse_or_repair_json, rec_test_generation.invoke_bedrock_text]
  cases hsl : sl raw with
  | ok j => rfl
  | error e =>
    dsimp only
    by_cases hrep : pyStrip ((client descriptions.SYSTEM_PROMPT_JSON_REPAIR raw).getD "") = ""
    · rw [if_pos hrep]
    · rw [if_neg hrep]

lemma rec_generate_calls_eq (sl : String → Except String Json)
    (client : ModelClient) (req : TestGenerationRequest) :
    (rec_test_generation.generate_test_cases sl client req).2 =
      if rec_test_generation.gen_text client req = "" then
        [⟨descriptions.SYSTEM_PROMPT_TEST_GENERATION, dumpTestGenRequest req, 1100⟩]
      else
        ⟨descriptions.SYSTEM_PROMPT_TEST_GENERATION, dumpTestGenRequest req, 1100⟩ ::
          (rec_test_generation.parse_or_repair_json sl client
            (rec_test_generation.gen_text client req)).2 := by
  simp only [rec_test_generation.generate_test_cases, rec_test_generation.invoke_bedrock_text,
    rec_test_generation.gen_text]
  by_cases hgen : pyStrip ((client descriptions.SYSTEM_PROMPT_TEST_GENERATION
      (dumpTestGenRequest req)).getD "") = ""
  · rw [if_pos hgen, if_pos hgen]
  · rw [if_neg hgen, if_neg hgen]

/-- C1, counterexample to the claim as stated: for the valid request `c1Req`
(`numRecommendations = 3`) and a model output that parses as JSON with only
two `definingObjectives`, the call does not fail with InsufficientResults —
the bare `except Exception` routes the semantic-validation failure into the
plain-text fallback, which succeeds on the raw JSON text and returns three
junk chunks of it. -/
theorem C1_counterexample :
    safe_json_loads c1Raw = .ok (Json.obj
      [("definingObjectives", Json.arr [Json.str "aaaa", Json.str "bbbb"]),
       ("reason", Json.str "alpha alpha alpha; beta beta beta; gamma gamma gamma")]) ∧
    (2 : Nat) < c1Req.numRecommendations ∧
    c1Req.Valid ∧
    (recommendation.recommend_objective safe_json_loads c1Client c1Req).1 =
      .ok { reason := none,
            definingObjectives :=
              ["\x7b\"definingObjectives\": [\"aaaa\", \"bbbb\"], \"reason\": \"alpha alpha alpha",
               "beta beta beta", "gamma gamma gamma\"\x7d"] } :=
  ⟨rfl, by decide, ⟨by decide, by decide, by decide⟩, rfl⟩

/-- C1 (amended): in the strict JSON path, a semantic-validation failure is
not terminal. On any strict-path failure — JSON parse failure, or a parsed
output with fewer `definingObjectives` than `numRecommendations`, or a
missing/empty `reason` when `includeReason` is true (all of which surface as
validation errors) — the reconciler runs the plain-text fallback on the same
raw text, and the call's outcome is exactly the fallback's outcome. -/
theorem C1_amended_fallback_on_any_strict_failure
    (sl : String → Except String Json) (client : ModelClient)
    (req : SimpleObjectiveRequest) (raw : String)
    (hcl : client recommendation.SYSTEM_PROMPT_SIMPLE (dumpSimpleRequest req) = some raw)
    (hs : pyStrip raw ≠ "")
    (hfail : (∃ e, sl raw = .error e) ∨
      (∃ parsed e, sl raw = .ok parsed ∧
        recommendation.validate_and_shape_output parsed req.includeReason
          req.numRecommendations = .error e)) :
    (recommendation.recommend_objective sl client req).1 =
      recommendation.fallback_parse_non_json_output raw req.includeReason
        req.numRecommendations := by
  rcases hfail with ⟨e, hsl⟩ | ⟨parsed, e, hsl, hv⟩
  · exact recommendation.recommend_objective_parse_failure hcl hs hsl
  · exact recommendation.recommend_objective_validation_failure hcl hs hsl hv

/-- Witness for the amended C1 at the counterexample input: the strict path
fails semantically (two objectives for three requested) and the call's
outcome is the fallback's outcome. -/
theorem C1_amended_witness :
    (recommendation.recommend_objective safe_json_loads c1Client c1Req).1 =
      recommendation.fallback_parse_non_json_output c1Raw c1Req.includeReason
        c1Req.numRecommendations :=
  C1_amended_fallback_on_any_strict_failure safe_json_loads c1Client c1Req c1Raw
    (by rfl) (by decide)
    (Or.inr ⟨Json.obj
      [("definingObjectives", Json.arr [Json.str "aaaa", Json.str "bbbb"]),
       ("reason", Json.str "alpha alpha alpha; beta beta beta; gamma gamma gamma")],
      "Model returned 2 definingObjectives but numRecommendations=3", by rfl, by rfl⟩)

/-- The parse of `wTgText`, used to drive the success path of variant 2 in
the C9 counterexample without evaluating the collaborator's prompt
comparison. -/
def wTgParsed : Json := Json.obj
  [("domain", Json.str "other"),
   ("language", Json.str "fr"),
   ("testCases", Json.arr
     [Json.obj
        [("name", Json.str "n1"), ("description", Json.str "d1"),
         ("persona", Json.null), ("userVariables", Json.obj []),
         ("steps", Json.arr [Json.str "s"]),
         ("expected", Json.arr [Json.str "e"])],
      Json.obj [("name", Json.str "n2"), ("description", Json.str "d2")],
      Json.obj [("name", Json.str "n3"), ("description", Json.str "d3")]])]

/-- When variant 2's generation call yields a text that parses, the outcome is
the validated, truth-enforced shape of the parsed value — stated as an
equation so that a concrete collaborator need not be evaluated deeply. -/
lemma rec_generate_parse_ok (sl : String → Except String Json)
    (client : ModelClient) (req : TestGenerationRequest) (t : String) (parsed : Json)
    (hcl : client descriptions.SYSTEM_PROMPT_TEST_GENERATION (dumpTestGenRequest req)
      = some t)
    (ht : pyStrip t ≠ "")
    (hsl : sl (pyStrip t) = .ok parsed) :
    (rec_test_generation.generate_test_cases sl client req).1 =
      (match parsed with
       | Json.obj fields =>
         match rec_test_generation.validate_min_counts fields
             req.context.number_of_intents with
         | .error e => .error e
         | .ok _ =>
           validateTestGenerationResponse
             (Json.obj (jsonSet (jsonSet fields "domain" (Json.str req.domain))
               "language" (Json.str req.context.language)))
       | _ => .error "Model output must be a JSON object") := by
  simp only [rec_test_generation.generate_test_cases,
    rec_test_generation.invoke_bedrock_text, rec_test_generation.parse_or_repair_json]
  rw [hcl]
  simp only [Option.getD_some]
  rw [if_neg ht]
  simp only [hsl]
  cases parsed <;> rfl

/-- C9, counterexample to the claim as stated: the two test-generation
variants do not send the same prompts — the generation prompt of
`test_generation.py` lacks the first-and-last-character rule of the
`descriptions.py` prompt used by `rec_test_generation.py` — and for a
collaborator that answers valid JSON only to the `descriptions.py` prompt,
variant 2 succeeds while variant 1 fails. -/
theorem C9_counterexample :
    test_generation.SYSTEM_PROMPT_TEST_GENERATION
      ≠ descriptions.SYSTEM_PROMPT_TEST_GENERATION ∧
    (test_generation.generate_test_cases safe_json_loads c9Client wTgReq).1
      = .error "Could not parse JSON from model output: nope" ∧
    (rec_test_generation.generate_test_cases safe_json_loads c9Client wTgReq).1
      = .ok wTgResp := by
  refine ⟨by decide, ?_, ?_⟩
  · exact tg_repair_parse_failure safe_json_loads c9Client wTgReq
      "Could not parse JSON from model output: nope"
      "Could not parse JSON from model output: nope"
      (by decide) (by rfl) (by decide) (by rfl)
  · have hcl : c9Client descriptions.SYSTEM_PROMPT_TEST_GENERATION
        (dumpTestGenRequest wTgReq) = some wTgText := by
      unfold c9Client
      rw [if_pos rfl]
    have h := rec_generate_parse_ok safe_json_loads c9Client wTgReq wTgText wTgParsed
      hcl (by decide) (by rfl)
    exact h.trans (by rfl)

lemma parse_or_repair_result (sl : String → Except String Json)
    (client : ModelClient) (raw : String) :
    (test_generation.parse_or_repair_json sl client raw).1 =
      match sl raw with
      | .ok j => .ok j
      | .error _ =>
        if pyStrip ((client test_generation.SYSTEM_PROMPT_JSON_REPAIR raw).getD "") = ""
        then .error "Model returned invalid JSON and repair step returned empty text."
        else sl (pyStrip ((client test_generation.SYSTEM_PROMPT_JSON_REPAIR raw).getD "")) := by
  simp only [test_generation.parse_or_repair_json, test_generation.invoke_bedrock_text]
  cases hsl : sl raw with
  | ok j => rfl
  | error e =>
    dsimp only
    by_cases hrep : pyStrip ((client test_generation.SYSTEM_PROMPT_JSON_REPAIR raw).getD "") = ""
    · rw [if_pos hrep, if_pos hrep]
    · rw [if_neg hrep, if_neg hrep]

lemma rec_parse_or_repair_result (sl : String → Except String Json)
    (client : ModelClient) (raw : String) :
    (rec_test_generation.parse_or_repair_json sl client raw).1 =
      match sl raw with
      | .ok j => .ok j
      | .error _ =>
        if pyStrip ((client descriptions.SYSTEM_PROMPT_JSON_REPAIR raw).getD "") = ""
        then .error "Model returned invalid JSON and repair step returned empty text."
        else sl (pyStrip ((client descriptions.SYSTEM_PROMPT_JSON_REPAIR raw).getD "")) := by
  simp only [rec_test_generation.parse_or_repair_json, rec_test_generation.invoke_bedrock_text]
  cases hsl : sl raw with
  | ok j => rfl
  | error e =>
    dsimp only
    by_cases hrep : pyStrip ((client descriptions.SYSTEM_PROMPT_JSON_REPAIR raw).getD "") = ""
    · rw [if_pos hrep, if_pos hrep]
    · rw [if_neg hrep, if_neg hrep]

lemma generate_result_eq (sl : String → Except String Json)
    (client : ModelClient) (req : TestGenerationRequest) :
    (test_generation.generate_test_cases sl client req).1 =
      if test_generation.gen_text client req = "" then
        .error "Bedrock response did not contain model text"
      else
        match (test_generation.parse_or_repair_json sl client
            (test_generation.gen_text client req)).1 with
        | .error e => .error e
        | .ok parsed =>
          match parsed with
          | Json.obj fields =>
            match test_generation.validate_min_counts fields
                req.context.number_of_intents with
            | .error e => .error e
            | .ok _ =>
              validateTestGenerationResponse
                (Json.obj (jsonSet (jsonSet fields "domain" (Json.str req.domain))
                  "language" (Json.str req.context.language)))
          | _ => .error "Model output must be a JSON object" := by
  simp only [test_generation.generate_test_cases, test_generation.invoke_bedrock_text,
    test_generation.gen_text]
  by_cases hgen : pyStrip ((client test_generation.SYSTEM_PROMPT_TEST_GENERATION
      (dumpTestGenRequest req)).getD "") = ""
  · rw [if_pos hgen, if_pos hgen]
  · rw [if_neg hgen, if_neg hgen]

lemma rec_generate_result_eq (sl : String → Except String Json)
    (client : ModelClient) (req : TestGenerationRequest) :
    (rec_test_generation.generate_test_cases sl client req).1 =
      if rec_test_generation.gen_text client req = "" then
        .error "Bedrock response did not contain model text"
      else
        match (rec_test_generation.parse_or_repair_json sl client
            (rec_test_generation.gen_text client req)).1 with
        | .error e => .error e
        | .ok parsed =>
          match parsed with
          | Json.obj fields =>
            match rec_test_generation.validate_min_counts fields
                req.context.number_of_intents with
            | .error e => .error e
            | .ok _ =>
              validateTestGenerationResponse
                (Json.obj (jsonSet (jsonSet fields "domain" (Json.str req.domain))
                  "language" (Json.str req.context.language)))
          | _ => .error "Model output must be a JSON object" := by
  simp only [rec_test_generation.generate_test_cases, rec_test_generation.invoke_bedrock_text,
    rec_test_generation.gen_text]
  by_cases hgen : pyStrip ((client descriptions.SYSTEM_PROMPT_TEST_GENERATION
      (dumpTestGenRequest req)).getD "") = ""
  · rw [if_pos hgen, if_pos hgen]
  · rw [if_neg hgen, if_neg hgen]

/-- C9 (amended): the two variants are extensionally equal except for the
system prompt of the generation call. Their repair prompts are identical, and
whenever the collaborator answers the two generation prompts with the same
text for the (identical) serialized request, the two reconcilers return the
same result and issue the same calls up to the generation call's system
prompt (same user texts and token limits). -/
theorem C9_amended_equivalence :
    test_generation.SYSTEM_PROMPT_JSON_REPAIR = descriptions.SYSTEM_PROMPT_JSON_REPAIR ∧
    ∀ (sl : String → Except String Json) (client : ModelClient)
      (req : TestGenerationRequest),
      client test_generation.SYSTEM_PROMPT_TEST_GENERATION (dumpTestGenRequest req)
        = client descriptions.SYSTEM_PROMPT_TEST_GENERATION (dumpTestGenRequest req) →
      (test_generation.generate_test_cases sl client req).1
        = (rec_test_generation.generate_test_cases sl client req).1 ∧
      ((test_generation.generate_test_cases sl client req).2.map
          (fun c => (c.userText, c.maxTokens)))
        = ((rec_test_generation.generate_test_cases sl client req).2.map
          (fun c => (c.userText, c.maxTokens))) := by
  refine ⟨rfl, ?_⟩
  intro sl client req hsame
  have hgtext : test_generation.gen_text client req
      = rec_test_generation.gen_text client req := by
    unfold test_generation.gen_text rec_test_generation.gen_text
    rw [hsame]
  constructor
  · rw [generate_result_eq, rec_generate_result_eq, hgtext,
      parse_or_repair_result, rec_parse_or_repair_result,
      show test_generation.SYSTEM_PROMPT_JSON_REPAIR
        = descriptions.SYSTEM_PROMPT_JSON_REPAIR from rfl,
      show test_generation.validate_min_counts
        = rec_test_generation.validate_min_counts from rfl]
  · rw [generate_calls_eq, rec_generate_calls_eq, hgtext,
      parse_or_repair_calls, rec_parse_or_repair_calls]
    by_cases hgen : rec_test_generation.gen_text client req = ""
    · rw [if_pos hgen, if_pos hgen]
      rfl
    · rw [if_neg hgen, if_neg hgen]
      cases hsl : sl (rec_test_generation.gen_text client req) with
      | ok j => rfl
      | error e => rfl

/-- Witness for the amended C9 at a concrete collaborator that ignores the
system prompt: both variants return the same successful response. -/
theorem C9_amended_equivalence_witness :
    (test_generation.generate_test_cases safe_json_loads wTgClient wTgReq).1
      = (rec_test_generation.generate_test_cases safe_json_loads wTgClient wTgReq).1 :=
  (C9_amended_equivalence.2 safe_json_loads wTgClient wTgReq (by rfl)).1

end RecEngine
